import Mathlib

/-!
Verification of pyactiveresource (Shopify/pyactiveresource) against its
natural-language specification.

Shallow embedding notes:
* Python values flowing through the codec are modelled by the inductive
  `PyVal`.  Machine-independent Python ints are `Int`; floats, decimals and
  datetimes are carried by their `str()` representation (their arithmetic is
  never used by the code under verification); bytes are `List (Fin 256)`.
* External collaborators (the stdlib `json` module, `xml.etree`'s
  string-level parser/writer, `dateutil`, PyYAML, and the inflector, which
  the spec explicitly treats as external utilities) are threaded through an
  `Env` capability record; theorems either hold for every `Env` or assume
  the library's documented contract as an explicit hypothesis.
* `ElementDict`/`ElementList` are `dict`/`list` subclasses whose only extra
  datum, `element_type`, feeds dynamic class resolution (spec section 4.4),
  which no claim here touches; they are modelled as plain maps/lists.
* Python exceptions are modelled with `Except PyExn`.
-/

namespace PyActiveResource

/-- A Python value as it flows through the pyactiveresource codec.
`float`, `decimal` and `datetime` carry the `str()` representation of the
underlying object; `dict` is insertion-ordered (association list), as
Python dicts are. -/
inductive PyVal where
  | null
  | bool (b : Bool)
  | int (n : Int)
  | float (r : String)
  | decimal (r : String)
  | str (s : String)
  | bytes (bs : List (Fin 256))
  | date (y m d : Nat)
  | datetime (r : String)
  | file (data : Option String) (name : String) (contentType : String)
  | list (xs : List PyVal)
  | dict (items : List (String × PyVal))
  deriving Inhabited

/-- The categorized transport errors raised by `connection.py` (only the
distinctions used by `save()` matter here: `ResourceInvalid` carries the
response body used for error parsing, everything else propagates). -/
inductive TransportErr where
  | resourceInvalid (body : String)
  | redirection (msg : String)
  | clientError (msg : String)
  | serverError (msg : String)
  | connectionErr (msg : String)
  deriving Inhabited, DecidableEq

/-- Python exceptions relevant to the embedded code.  `utilError` is
`pyactiveresource.util.Error`, `formatsError` is
`pyactiveresource.formats.Error`; the rest are stdlib exception classes. -/
inductive PyExn where
  | utilError (msg : String)
  | formatsError (msg : String)
  | valueError (msg : String)
  | typeError (msg : String)
  | keyError (k : String)
  | importError (msg : String)
  | unicodeError (msg : String)
  | binasciiError (msg : String)
  | attributeError (msg : String)
  | transport (e : TransportErr)
  deriving Inhabited, DecidableEq

/-! ### Python dict primitives (insertion-ordered association lists) -/

/-- `d.get(k)` / `k in d` lookup on an insertion-ordered Python dict. -/
def pyGet (items : List (String × α)) (k : String) : Option α :=
  (items.find? (fun kv => kv.1 = k)).map (·.2)

/-- `d[k] = v` on a Python dict: overwrite in place if the key exists
(keeping its position), otherwise append at the end. -/
def pySet (items : List (String × α)) (k : String) (v : α) :
    List (String × α) :=
  if (items.find? (fun kv => kv.1 = k)).isSome then
    items.map (fun kv => if kv.1 = k then (k, v) else kv)
  else
    items ++ [(k, v)]

/-- Python truthiness (`bool(v)`) for the modelled values.  A float is falsy
exactly when it is zero, whose `repr` is `"0.0"` or `"-0.0"`; a Decimal is
falsy when its coefficient digits (before any exponent marker) are all
zero.  Dates, datetimes and file objects are always truthy. -/
def truthy : PyVal → Bool
  | .null => false
  | .bool b => b
  | .int n => n != 0
  | .float r => !(r = "0.0" || r = "-0.0")
  | .decimal r =>
      (r.toList.takeWhile (fun c => c ≠ 'E' ∧ c ≠ 'e')).any
        (fun c => c.isDigit && c ≠ '0')
  | .str s => s ≠ ""
  | .bytes bs => !bs.isEmpty
  | .date _ _ _ => true
  | .datetime _ => true
  | .file _ _ _ => true
  | .list xs => !xs.isEmpty
  | .dict items => !items.isEmpty

/-! ### Decimal-digit strings: Python `str(int)` and `int(str)` -/

/-- The character for a decimal digit value. -/
def digitChar (d : Nat) : Char := Char.ofNat (48 + d)

/-- Our own ASCII digit test (`'0'..'9'`), kept independent of library
definitions so that proofs control it fully. -/
def isDig (c : Char) : Bool := 48 ≤ c.toNat && c.toNat ≤ 57

def digitVal (c : Char) : Nat := c.toNat - 48

/-- The decimal digits of a natural number, most significant first
(the digits of `str(n)` in Python). -/
def natDigits (n : Nat) : List Char :=
  if _h : n < 10 then [digitChar n]
  else natDigits (n / 10) ++ [digitChar (n % 10)]
  decreasing_by exact Nat.div_lt_self (by omega) (by omega)

/-- Python `str(n)` for an int: decimal digits, with a leading `-` when
negative. -/
def intStr (n : Int) : String :=
  if n < 0 then ⟨'-' :: natDigits n.natAbs⟩ else ⟨natDigits n.toNat⟩

/-- The whitespace characters stripped by Python's `str.strip()` /
`int(str)` (ASCII subset: space, tab, newline, carriage return, form feed,
vertical tab). -/
def isPySpace (c : Char) : Bool :=
  c.toNat = 32 || c.toNat = 9 || c.toNat = 10 || c.toNat = 13 ||
  c.toNat = 12 || c.toNat = 11

/-- `str.strip()`: drop leading and trailing whitespace. -/
def pyStrip (cs : List Char) : List Char :=
  ((cs.dropWhile isPySpace).reverse.dropWhile isPySpace).reverse

/-- Digit-run parser for `int(str)`: consumes digits, allowing a single
`_` between two digits (Python's underscore grouping); accumulates the
value. -/
def pyDigitsCore : List Char → Nat → Option Nat
  | [], acc => some acc
  | c :: cs, acc =>
    if isDig c then pyDigitsCore cs (acc * 10 + digitVal c)
    else if c = '_' then
      match cs with
      | c2 :: cs2 =>
          if isDig c2 then pyDigitsCore cs2 (acc * 10 + digitVal c2)
          else none
      | [] => none
    else none

/-- Unsigned part of `int(str)`: at least one digit, and the first
character must be a digit (no leading underscore). -/
def parseUnsigned : List Char → Option Nat
  | [] => none
  | c :: cs => if isDig c then pyDigitsCore cs (digitVal c) else none

/-- Python's `int(str)` built-in: strip whitespace, optional sign, decimal
digits (with underscore grouping); `none` models the `ValueError` raise.
Non-ASCII digit forms are not modelled. -/
def pyIntParse (s : String) : Option Int :=
  match pyStrip s.toList with
  | [] => none
  | c :: rest =>
    if c = '-' then (parseUnsigned rest).map (fun n => -(n : Int))
    else if c = '+' then (parseUnsigned rest).map (fun n => (n : Int))
    else (parseUnsigned (c :: rest)).map (fun n => (n : Int))

/-- Zero-padding on the left to the given width (Python `'%0*d'`). -/
def padZero (width : Nat) (cs : List Char) : List Char :=
  List.replicate (width - cs.length) '0' ++ cs

/-- `str(datetime.date(y, m, d))`: `YYYY-MM-DD`, zero padded. -/
def dateStr (y m d : Nat) : String :=
  ⟨padZero 4 (natDigits y) ++ '-' :: padZero 2 (natDigits m) ++
   '-' :: padZero 2 (natDigits d)⟩

/-- `six.text_type(value)` (`str()`) as used by the default XML serializer
and by `%s` path formatting.  Containers and file objects are rendered with
a fixed placeholder text: Python would use their `repr`, which embeds
memory addresses for `FileObject` and is never exercised by the code paths
under verification (`_to_xml_element` recurses into containers before
`serialize` can see them). -/
def pyStr : PyVal → String
  | .null => "None"
  | .bool b => if b then "True" else "False"
  | .int n => intStr n
  | .float r => r
  | .decimal r => r
  | .str s => s
  | .bytes _ => "<bytes>"
  | .date y m d => dateStr y m d
  | .datetime r => r
  | .file _ _ _ => "<FileObject>"
  | .list _ => "<list>"
  | .dict _ => "<dict>"

/-! ### base64 (stdlib `base64.b64encode` / `b64decode`, standard alphabet) -/

/-- The standard base64 alphabet character for a sextet. -/
def b64char (s : Fin 64) : Char :=
  if s.val < 26 then Char.ofNat (65 + s.val)
  else if s.val < 52 then Char.ofNat (97 + (s.val - 26))
  else if s.val < 62 then Char.ofNat (48 + (s.val - 52))
  else if s.val = 62 then '+'
  else '/'

/-- Inverse alphabet lookup; `none` for characters outside the standard
alphabet (including the `=` pad). -/
def b64val (c : Char) : Option (Fin 64) :=
  if h : 65 ≤ c.toNat ∧ c.toNat ≤ 90 then some ⟨c.toNat - 65, by omega⟩
  else if h : 97 ≤ c.toNat ∧ c.toNat ≤ 122 then
    some ⟨c.toNat - 97 + 26, by omega⟩
  else if h : 48 ≤ c.toNat ∧ c.toNat ≤ 57 then
    some ⟨c.toNat - 48 + 52, by omega⟩
  else if c = '+' then some 62
  else if c = '/' then some 63
  else none

/-- `base64.b64encode`: 3-byte groups to 4 alphabet characters, with `=`
padding for a 1- or 2-byte tail. -/
def b64encodeChars : List (Fin 256) → List Char
  | [] => []
  | [b] =>
      [b64char ⟨b.val / 4, by omega⟩,
       b64char ⟨b.val % 4 * 16, by omega⟩, '=', '=']
  | [b1, b2] =>
      [b64char ⟨b1.val / 4, by omega⟩,
       b64char ⟨b1.val % 4 * 16 + b2.val / 16, by omega⟩,
       b64char ⟨b2.val % 16 * 4, by omega⟩, '=']
  | b1 :: b2 :: b3 :: rest =>
      [b64char ⟨b1.val / 4, by omega⟩,
       b64char ⟨b1.val % 4 * 16 + b2.val / 16, by omega⟩,
       b64char ⟨b2.val % 16 * 4 + b3.val / 64, by omega⟩,
       b64char ⟨b3.val % 64, by omega⟩] ++ b64encodeChars rest

def b64byte1 (s1 s2 : Fin 64) : Fin 256 :=
  ⟨s1.val * 4 + s2.val / 16, by omega⟩
def b64byte2 (s2 s3 : Fin 64) : Fin 256 :=
  ⟨s2.val % 16 * 16 + s3.val / 4, by omega⟩
def b64byte3 (s3 s4 : Fin 64) : Fin 256 :=
  ⟨s3.val % 4 * 64 + s4.val, by omega⟩

/-- `base64.b64decode` on character lists: 4-character blocks, `=` padding
only in a final block; `none` models the `binascii.Error` raise.  (CPython's
default mode first discards characters outside the alphabet; no claim here
feeds it such characters.) -/
def b64decodeChars : List Char → Option (List (Fin 256))
  | [] => some []
  | c1 :: c2 :: c3 :: c4 :: rest =>
    match b64val c1, b64val c2 with
    | some s1, some s2 =>
      if c3 = '=' then
        if c4 = '=' then
          if rest.isEmpty then some [b64byte1 s1 s2] else none
        else none
      else
        match b64val c3 with
        | some s3 =>
          if c4 = '=' then
            if rest.isEmpty then some [b64byte1 s1 s2, b64byte2 s2 s3]
            else none
          else
            match b64val c4 with
            | some s4 =>
                (b64decodeChars rest).map
                  (fun bs => b64byte1 s1 s2 :: b64byte2 s2 s3 ::
                             b64byte3 s3 s4 :: bs)
            | none => none
        | none => none
    | _, _ => none
  | _ => none

/-- `base64.b64encode(value).decode('ascii')` as a string. -/
def b64encodeStr (bs : List (Fin 256)) : String := ⟨b64encodeChars bs⟩

/-! ### String helpers (ASCII fragments of Python's str methods / re) -/

def isUpperA (c : Char) : Bool := 65 ≤ c.toNat && c.toNat ≤ 90
def isLowerA (c : Char) : Bool := 97 ≤ c.toNat && c.toNat ≤ 122
def isAlphaA (c : Char) : Bool := isUpperA c || isLowerA c
/-- `\w` of Python's `re` (ASCII fragment). -/
def isWordC (c : Char) : Bool := isAlphaA c || isDig c || c = '_'

def toLowerA (c : Char) : Char :=
  if isUpperA c then Char.ofNat (c.toNat + 32) else c

/-- Python `s.lower()` (ASCII). -/
def pyLower (s : String) : String := ⟨s.toList.map toLowerA⟩

/-- Single-character `str.replace` (`tag.replace('-', '_')` and friends). -/
def charReplace (a b : Char) (s : String) : String :=
  ⟨s.toList.map (fun c => if c = a then b else c)⟩

/-- The core of `util.underscore`:
`re.sub(r'\B((?<=[a-z])[A-Z]|[A-Z](?=[a-z]))', r'_\1', word)` inserts `_`
before an uppercase letter that follows a word character, when either the
previous character is lowercase or the next one is.  `prev` is the
character preceding the current list. -/
def underscoreCore : Char → List Char → List Char
  | _, [] => []
  | prev, c :: rest =>
    let lowerNext := match rest with
      | n :: _ => isLowerA n
      | [] => false
    if isUpperA c && isWordC prev && (isLowerA prev || lowerNext) then
      '_' :: c :: underscoreCore c rest
    else
      c :: underscoreCore c rest

/-- `util.underscore`: CamelCase to lower_with_underscores. -/
def underscoreW (w : String) : String :=
  match w.toList with
  | [] => ""
  | c :: rest => pyLower ⟨c :: underscoreCore c rest⟩

/-- `str.split()` with no arguments: split on whitespace runs, discarding
empty tokens (`acc` accumulates the current token, reversed). -/
def pySplitAux : List Char → List Char → List (List Char)
  | [], acc => if acc.isEmpty then [] else [acc.reverse]
  | c :: cs, acc =>
    if isPySpace c then
      if acc.isEmpty then pySplitAux cs []
      else acc.reverse :: pySplitAux cs []
    else pySplitAux cs (c :: acc)

def pySplit (s : String) : List String :=
  (pySplitAux s.toList []).map (fun cs => ⟨cs⟩)

/-! ### `string.Template` (used by `_prefix` / `_prefix_parameters`)

Python's `Template` pattern recognizes, after a `$` delimiter: `$$`
(escape), `$name`, `${name}` with `name` matching `[_a-zA-Z][_a-zA-Z0-9]*`,
and otherwise an `invalid` empty match (which `safe_substitute` renders as
the bare `$`).  The tokenizer below is that scan. -/

def isIdStart (c : Char) : Bool := isAlphaA c || c = '_'
def isIdChar (c : Char) : Bool := isAlphaA c || isDig c || c = '_'

inductive TmplToken where
  | lit (c : Char)
  | escaped
  | placeholder (name : String) (braced : Bool)
  | invalid
  deriving Inhabited, DecidableEq

def tmplTokens : List Char → List TmplToken
  | [] => []
  | ['$'] => [.invalid]
  | '$' :: '$' :: rest => .escaped :: tmplTokens rest
  | '$' :: '{' :: rest =>
    let name := rest.takeWhile isIdChar
    let rem := rest.dropWhile isIdChar
    if name ≠ [] && isIdStart name.headI && rem.head? == some '}' then
      .placeholder ⟨name⟩ true :: tmplTokens rem.tail
    else
      .invalid :: tmplTokens ('{' :: rest)
  | '$' :: c :: rest =>
    if isIdStart c then
      .placeholder ⟨c :: rest.takeWhile isIdChar⟩ false ::
        tmplTokens (rest.dropWhile isIdChar)
    else
      .invalid :: tmplTokens (c :: rest)
  | c :: rest => .lit c :: tmplTokens rest
  termination_by cs => cs.length
  decreasing_by
  all_goals
    (have hd : ∀ (p : Char → Bool) (l : List Char),
          (l.dropWhile p).length ≤ l.length := by
       intro p l
       induction l with
       | nil => simp [List.dropWhile]
       | cons x xs ih =>
         simp only [List.dropWhile]
         split
         · simp; omega
         · simp
     have _h1 := hd isIdChar rest
     have _h2 : (List.dropWhile isIdChar rest).tail.length ≤
         (List.dropWhile isIdChar rest).length := by
       cases List.dropWhile isIdChar rest <;> simp
     simp <;> omega)

/-- The placeholder names occurring in a token list, in order. -/
def tokenNames : List TmplToken → List String
  | [] => []
  | .placeholder name _ :: ts => name :: tokenNames ts
  | _ :: ts => tokenNames ts

/-- `_prefix_parameters`: the set of placeholder names scanned from the
prefix-source template (modelled as a deduplicated list; the code builds a
Python `set`, so only membership is meaningful). -/
def prefixParameters (tmpl : String) : List String :=
  (tokenNames (tmplTokens tmpl.toList)).dedup

/-- `Template.safe_substitute(mapping)`: substitute known placeholders,
render `$$` as `$`, and leave unknown placeholders and invalid uses as
their original text. -/
def safeSubstitute (ts : List TmplToken) (m : List (String × String)) :
    String :=
  match ts with
  | [] => ""
  | .lit c :: rest => String.singleton c ++ safeSubstitute rest m
  | .escaped :: rest => "$" ++ safeSubstitute rest m
  | .invalid :: rest => "$" ++ safeSubstitute rest m
  | .placeholder name braced :: rest =>
    (match pyGet m name with
     | some v => v
     | none => if braced then "$\x7b" ++ name ++ "\x7d" else "$" ++ name) ++
      safeSubstitute rest m

/-- Total placeholder substitution: every placeholder is replaced by
`f name`.  This is the spec-level description of prefix rendering
("substitute each placeholder with the matching entry of options, or the
empty string when missing"), proved equivalent to the code's
`safe_substitute` composition in claim C4's theorem. -/
def substituteAll (ts : List TmplToken) (f : String → String) : String :=
  match ts with
  | [] => ""
  | .lit c :: rest => String.singleton c ++ substituteAll rest f
  | .escaped :: rest => "$" ++ substituteAll rest f
  | .invalid :: rest => "$" ++ substituteAll rest f
  | .placeholder name _ :: rest => f name ++ substituteAll rest f

/-- `re.sub('/$', '', s)`: strip one trailing slash. -/
def stripOneTrailingSlash (s : String) : String :=
  if s.toList.getLast? = some '/' then ⟨s.toList.dropLast⟩ else s

/-- `re.sub('^/+', '', s)`: strip all leading slashes. -/
def stripLeadingSlashes (s : String) : String :=
  ⟨s.toList.dropWhile (fun c => c = '/')⟩

/-- `ActiveResource._prefix(options)`: strip one trailing slash from the
raw prefix-source template, build the substitution mapping from the
scanned placeholder set (`options.get(k, '')`, values rendered with
`str()`), `safe_substitute`, then strip leading slashes. -/
def prefixFn (tmpl : String) (opts : List (String × PyVal)) : String :=
  let path := stripOneTrailingSlash tmpl
  let keys := prefixParameters tmpl
  let m := keys.map (fun k =>
    (k, match pyGet opts k with
        | some v => pyStr v
        | none => ""))
  stripLeadingSlashes (safeSubstitute (tmplTokens path.toList) m)

/-! ### `time.strptime(s, '%Y-%m-%d')` and `datetime.date` -/

/-- `%m` directive (regex `1[0-2]|0[1-9]|[1-9]`, alternatives tried in
order): returns the month and the unconsumed input. -/
def parseMonth2 : List Char → Option (Nat × List Char)
  | c1 :: c2 :: rest =>
    if c1.toNat = 49 && 48 ≤ c2.toNat && c2.toNat ≤ 50 then
      some (10 + digitVal c2, rest)
    else if c1.toNat = 48 && 49 ≤ c2.toNat && c2.toNat ≤ 57 then
      some (digitVal c2, rest)
    else if 49 ≤ c1.toNat && c1.toNat ≤ 57 then
      some (digitVal c1, c2 :: rest)
    else none
  | [c1] =>
    if 49 ≤ c1.toNat && c1.toNat ≤ 57 then some (digitVal c1, []) else none
  | [] => none

/-- `%d` directive (regex `3[01]|[12]\d|0[1-9]|[1-9]`). -/
def parseDay2 : List Char → Option (Nat × List Char)
  | c1 :: c2 :: rest =>
    if c1.toNat = 51 && (c2.toNat = 48 || c2.toNat = 49) then
      some (30 + digitVal c2, rest)
    else if (c1.toNat = 49 || c1.toNat = 50) && isDig c2 then
      some (digitVal c1 * 10 + digitVal c2, rest)
    else if c1.toNat = 48 && 49 ≤ c2.toNat && c2.toNat ≤ 57 then
      some (digitVal c2, rest)
    else if 49 ≤ c1.toNat && c1.toNat ≤ 57 then
      some (digitVal c1, c2 :: rest)
    else none
  | [c1] =>
    if 49 ≤ c1.toNat && c1.toNat ≤ 57 then some (digitVal c1, []) else none
  | [] => none

/-- `time.strptime(s, '%Y-%m-%d')`: `%Y` is exactly four digits, then a
literal `-`, `%m`, `-`, `%d`, and the whole string must be consumed.
(The regex alternatives are modelled first-match; the inputs appearing in
the claims never need backtracking.) -/
def parseYmd (cs : List Char) : Option (Nat × Nat × Nat) :=
  match cs with
  | a :: b :: c :: d :: '-' :: rest =>
    if isDig a && isDig b && isDig c && isDig d then
      let y := ((digitVal a * 10 + digitVal b) * 10 + digitVal c) * 10 +
               digitVal d
      match parseMonth2 rest with
      | some (m, '-' :: rest2) =>
        match parseDay2 rest2 with
        | some (dd, []) => some (y, m, dd)
        | _ => none
      | _ => none
    else none
  | _ => none

def isLeapYear (y : Nat) : Bool :=
  y % 4 = 0 && (y % 100 ≠ 0 || y % 400 = 0)

def daysInMonth (y m : Nat) : Nat :=
  if m = 2 then (if isLeapYear y then 29 else 28)
  else if m = 4 || m = 6 || m = 9 || m = 11 then 30
  else 31

/-- `datetime.date(y, m, d)` constructor validation (`MINYEAR = 1`,
`MAXYEAR = 9999`); `none` models the `ValueError` raise. -/
def pyDateMake (y m d : Nat) : Option PyVal :=
  if 1 ≤ y && y ≤ 9999 && 1 ≤ m && m ≤ 12 && 1 ≤ d && d ≤ daysInMonth y m
  then some (.date y m d) else none

/-! ### XML element trees and `util.xml_to_dict` -/

/-- An `xml.etree` element: tag, attribute dict (`element.items()`),
text (`element.text`, `none` when absent) and child elements in document
order. -/
inductive XmlElement where
  | mk (tag : String) (attrs : List (String × String))
       (text : Option String) (children : List XmlElement)

def XmlElement.tag : XmlElement → String
  | .mk t _ _ _ => t
def XmlElement.attrs : XmlElement → List (String × String)
  | .mk _ a _ _ => a
def XmlElement.text : XmlElement → Option String
  | .mk _ _ t _ => t
def XmlElement.children : XmlElement → List XmlElement
  | .mk _ _ _ c => c

/-- External collaborators, threaded as capabilities: the stdlib `json`
module, `xml.etree`'s string-level parser/writer, `dateutil.parser.parse`
(carrying the parsed datetime's `str()`), PyYAML, CPython's `float()` and
`decimal.Decimal()` constructors (carrying the resulting object's `str()`),
and the inflector's `singularize` (which the spec treats as an external
pure string transform). -/
structure Env where
  jsonLoads : String → Except PyExn PyVal
  jsonDumps : PyVal → Except PyExn String
  etFromstring : String → Except PyExn XmlElement
  etTostring : XmlElement → String
  dateParse : String → Except PyExn String
  yamlLoad : String → Except PyExn PyVal
  floatParse : String → Except PyExn String
  decimalParse : String → Except PyExn String
  singularizeFn : String → String

/-- The textual message of an exception (`'%s' % err`). -/
def exnMsg : PyExn → String
  | .utilError m => m
  | .formatsError m => m
  | .valueError m => m
  | .typeError m => m
  | .keyError k => k
  | .importError m => m
  | .unicodeError m => m
  | .binasciiError m => m
  | .attributeError m => m
  | .transport _ => "connection error"

/-- `not element.text` (the text is absent or empty). -/
def noText : Option String → Bool
  | none => true
  | some t => t = ""

/-- The repeated-child-tag merge step of `xml_to_dict`'s children branch:
a fresh tag is stored directly; a repeated tag appends to the stored value
when it is already a list, and otherwise replaces it by the two-element
list `[old, new]`. -/
def addChildAttr (items : List (String × PyVal)) (k : String) (v : PyVal) :
    List (String × PyVal) :=
  match pyGet items k with
  | some old =>
    match old with
    | .list xs => pySet items k (.list (xs ++ [v]))
    | _ => pySet items k (.list [old, v])
  | none => items ++ [(k, v)]

mutual

/-- `util.xml_to_dict` on an already-parsed element (the
`ElementTree element` case of the source), branch for branch.  The
`element_type` metadata attached to `ElementDict`/`ElementList` results is
dropped (it only feeds dynamic class resolution, outside these claims);
the `yaml`/`datetime`/`float`/`decimal` leaves defer to the corresponding
external constructors in `env`. -/
def xmlToDict (env : Env) (e : XmlElement) (saveroot : Bool) :
    Except PyExn PyVal :=
  match e with
  | .mk tag attrs text children =>
    let elementType := pyLower ((pyGet attrs "type").getD "")
    if elementType = "array" then do
      let vs ← xmlArrayChildren env children
      let listType := charReplace '-' '_' tag
      if saveroot then .ok (.dict [(listType, .list vs)])
      else .ok (.list vs)
    else if pyGet attrs "nil" = some "true" then .ok .null
    else if (elementType = "integer" || elementType = "datetime" ||
             elementType = "date" || elementType = "decimal" ||
             elementType = "double" || elementType = "float") &&
            noText text then .ok .null
    else if elementType = "integer" then
      match text with
      | some t =>
        match pyIntParse t with
        | some n => .ok (.int n)
        | none => .error (.valueError ("invalid literal for int: " ++ t))
      | none => .error (.typeError "int() argument is None")
    else if elementType = "datetime" then
      match text with
      | some t => (env.dateParse t).map (fun r => .datetime r)
      | none => .error (.typeError "parse() argument is None")
    else if elementType = "date" then
      match text with
      | some t =>
        match parseYmd t.toList with
        | some (y, m, d) =>
          match pyDateMake y m d with
          | some v => .ok v
          | none => .error (.valueError "day is out of range for month")
        | none =>
          .error (.valueError ("time data does not match format: " ++ t))
      | none => .error (.typeError "strptime() argument is None")
    else if elementType = "decimal" then
      match text with
      | some t => (env.decimalParse t).map (fun r => .decimal r)
      | none => .error (.typeError "Decimal() argument is None")
    else if elementType = "float" || elementType = "double" then
      match text with
      | some t => (env.floatParse t).map (fun r => .float r)
      | none => .error (.typeError "float() argument is None")
    else if elementType = "boolean" then
      match text with
      | none => .ok (.bool false)
      | some t =>
        if t = "" then .ok (.bool false)
        else .ok (.bool (pyStrip t.toList = "true".toList ||
                         pyStrip t.toList = "1".toList))
    else if elementType = "yaml" then
      match text with
      | some t => env.yamlLoad t
      | none => .error (.typeError "safe_load() argument is None")
    else if elementType = "base64binary" then
      match text with
      | some t =>
        if t.toList.all (fun c => c.toNat < 128) then
          match b64decodeChars t.toList with
          | some bs => .ok (.bytes bs)
          | none => .error (.binasciiError "Invalid base64-encoded string")
        else .error (.unicodeError "ascii codec cannot encode")
      | none => .error (.attributeError "NoneType has no attribute encode")
    else if elementType = "file" then
      let contentType := (pyGet attrs "content_type").getD
        "application/octet-stream"
      let fname := (pyGet attrs "name").getD "untitled"
      .ok (.file text fname contentType)
    else if elementType = "symbol" || elementType = "string" then
      .ok (.str (match text with
                 | none => ""
                 | some t => t))
    else if !children.isEmpty then do
      let seed := attrs.map (fun kv => (kv.1, PyVal.str kv.2))
      let merged ← xmlMergeChildren env children seed
      if saveroot then
        .ok (.dict [(charReplace '-' '_' tag, .dict merged)])
      else .ok (.dict merged)
    else if !attrs.isEmpty then
      .ok (.dict (attrs.map (fun kv => (kv.1, PyVal.str kv.2))))
    else
      match text with
      | some t => .ok (.str t)
      | none => .ok .null

/-- The `type="array"` branch: children decoded in document order with
`saveroot=False`. -/
def xmlArrayChildren (env : Env) (cs : List XmlElement) :
    Except PyExn (List PyVal) :=
  match cs with
  | [] => .ok []
  | c :: rest => do
    let v ← xmlToDict env c false
    let vs ← xmlArrayChildren env rest
    .ok (v :: vs)

/-- The children branch: decode each child (`saveroot=False`) in document
order and merge it under its hyphen-normalized tag. -/
def xmlMergeChildren (env : Env) (cs : List XmlElement)
    (acc : List (String × PyVal)) : Except PyExn (List (String × PyVal)) :=
  match cs with
  | [] => .ok acc
  | c :: rest => do
    let v ← xmlToDict env c false
    xmlMergeChildren env rest (addChildAttr acc (charReplace '-' '_' c.tag) v)

end

/-- `util.xml_to_dict` on a string: an all-whitespace payload yields the
empty dict (blank HEAD-style success bodies); a parser exception is
wrapped into `util.Error`; otherwise decode the parsed element. -/
def xmlToDictStr (env : Env) (s : String) (saveroot : Bool) :
    Except PyExn PyVal :=
  if s ≠ "" && s.toList.all isPySpace then .ok (.dict [])
  else
    match env.etFromstring s with
    | .error e =>
        .error (.utilError ("Unable to parse xml data: " ++ exnMsg e))
    | .ok el => xmlToDict env el saveroot

/-! ### `util.serialize`, `util._to_xml_element`, `util.to_xml` -/

/-- What `util.serialize(value, element)` writes onto its element: a
`nil="true"` attribute for `None`; otherwise element text plus a `type`
attribute when the matched serializer provides one.  The serializer table
is scanned in order — `bool`, `six.integer_types`, `bytes`, then the
catch-all default `(None, six.text_type(value))`. -/
structure SerializedLeaf where
  nilAttr : Bool
  typeAttr : Option String
  text : Option String
  deriving DecidableEq

def serialize : PyVal → SerializedLeaf
  | .null => ⟨true, none, none⟩
  | .bool b => ⟨false, some "boolean", some (if b then "true" else "false")⟩
  | .int n => ⟨false, some "integer", some (intStr n)⟩
  | .bytes bs => ⟨false, some "base64Binary", some (b64encodeStr bs)⟩
  | v => ⟨false, none, some (pyStr v)⟩

/-- `util._to_xml_element(obj, root, dasherize)`: lists become
`type="array"` elements whose children are tagged with the singularized
(dasherized) root; dict entries become child elements named by their key;
anything else is a serialized leaf. -/
def toXmlElement (env : Env) (obj : PyVal) (root : String)
    (dasherize : Bool) : XmlElement :=
  let rootName := if dasherize then charReplace '_' '-' root else root
  match obj with
  | .list xs =>
      .mk rootName [("type", "array")] none
        (xs.attach.map (fun v =>
          toXmlElement env v.1 (env.singularizeFn rootName) dasherize))
  | .dict items =>
      .mk rootName [] none
        (items.attach.map (fun kv =>
          toXmlElement env kv.1.2 kv.1.1 dasherize))
  | v =>
      let s := serialize v
      .mk rootName
        ((if s.nilAttr then [("nil", "true")] else []) ++
         (match s.typeAttr with
          | some t => [("type", t)]
          | none => []))
        s.text []
  termination_by sizeOf obj
  decreasing_by
  · have := List.sizeOf_lt_of_mem v.2
    simp; omega
  · obtain ⟨⟨k1, v2⟩, hmem⟩ := kv
    have := List.sizeOf_lt_of_mem hmem
    simp at this ⊢
    omega

def xmlHeader : String := "<?xml version=\"1.0\" encoding=\"UTF-8\"?>\n"

/-- `util.to_xml` (the `pretty` whitespace post-pass is not modelled; no
claim concerns it). -/
def toXml (env : Env) (obj : PyVal) (root : String) (header : Bool)
    (dasherize : Bool) : String :=
  (if header then xmlHeader else "") ++
    env.etTostring (toXmlElement env obj root dasherize)

/-! ### `util.to_json` / `formats` -/

/-- The wrapping step of `util.to_json`: `if root: obj = \x7broot: obj\x7d`. -/
def toJsonVal (obj : PyVal) (root : String) : PyVal :=
  if root ≠ "" then .dict [(root, obj)] else obj

/-- `util.to_json(obj, root)` = `json.dumps` of the wrapped value. -/
def toJson (env : Env) (obj : PyVal) (root : String) : Except PyExn String :=
  env.jsonDumps (toJsonVal obj root)

/-- `formats.remove_root`: unwrap a single-keyed outer map, otherwise
return the value unchanged. -/
def removeRoot : PyVal → PyVal
  | .dict [kv] => kv.2
  | v => v

/-- `formats.XMLFormat.decode`: `xml_to_dict(s, saveroot=False)`, with
`util.Error` re-raised as `formats.Error`, then `remove_root`.  Any other
exception escaping `xml_to_dict` (e.g. an `int()` conversion failure)
propagates unwrapped. -/
def XMLFormatDecode (env : Env) (s : String) : Except PyExn PyVal :=
  match xmlToDictStr env s false with
  | .error (.utilError m) => .error (.formatsError m)
  | .error e => .error e
  | .ok data => .ok (removeRoot data)

/-- `formats.JSONFormat.decode`: `json.loads`, with `ValueError` re-raised
as `formats.Error`, then `remove_root`. -/
def JSONFormatDecode (env : Env) (s : String) : Except PyExn PyVal :=
  match env.jsonLoads s with
  | .error (.valueError m) => .error (.formatsError m)
  | .error e => .error e
  | .ok data => .ok (removeRoot data)

/-- `formats.JSONFormat.encode`: `util.to_json(data)` with the default
root name `'object'`. -/
def JSONFormatEncode (env : Env) (data : PyVal) : Except PyExn String :=
  toJson env data "object"

mutual

/-- The values the stdlib `json` module can serialize (`json.dumps`
raises `TypeError` elsewhere).  Used to state the external library's
round-trip contract. -/
def jsonExpressible : PyVal → Bool
  | .null => true
  | .bool _ => true
  | .int _ => true
  | .float _ => true
  | .str _ => true
  | .list xs => jsonExpressibleList xs
  | .dict items => jsonExpressibleItems items
  | _ => false

def jsonExpressibleList : List PyVal → Bool
  | [] => true
  | v :: rest => jsonExpressible v && jsonExpressibleList rest

def jsonExpressibleItems : List (String × PyVal) → Bool
  | [] => true
  | kv :: rest => jsonExpressible kv.2 && jsonExpressibleItems rest

end

/-! ### `activeresource.Errors` -/

/-- `Errors.add`: `self.errors.setdefault(attribute, []).append(error)`. -/
def errAdd (errors : List (String × List PyVal)) (attr : String)
    (msg : PyVal) : List (String × List PyVal) :=
  match pyGet errors attr with
  | some xs => pySet errors attr (xs ++ [msg])
  | none => errors ++ [(attr, [msg])]

/-- Python iteration (`for message in errors`) over the value shapes the
error parser can meet: list elements, the characters of a string (as
1-character strings), the keys of a dict; anything else raises
`TypeError`. -/
def iterPy : PyVal → Except PyExn (List PyVal)
  | .list xs => .ok xs
  | .str s => .ok (s.toList.map (fun c => .str (String.singleton c)))
  | .dict items => .ok (items.map (fun kv => .str kv.1))
  | _ => .error (.typeError "object is not iterable")

/-- `Errors.from_array`: each message is split on whitespace; when
its first token, underscored, names a record attribute the remainder of
the raw string (everything past `len(token) + 1` characters) is filed
under that attribute, otherwise the whole message goes to `base`.
A non-string message raises (`.split` on a non-str); an empty/blank
message raises `IndexError` (`message.split()[0]`). -/
def errorsFromArray (attrKeys : List String) (messages : List PyVal)
    (errs : List (String × List PyVal)) :
    Except PyExn (List (String × List PyVal)) :=
  match messages with
  | [] => .ok errs
  | m :: rest =>
    match m with
    | .str s =>
      match pySplit s with
      | [] => .error (.valueError "IndexError: list index out of range")
      | tok :: _ =>
        let key := underscoreW tok
        let errs2 :=
          if attrKeys.contains key then
            errAdd errs key (.str ⟨s.toList.drop (tok.length + 1)⟩)
          else errAdd errs "base" (.str s)
        errorsFromArray attrKeys rest errs2
    | _ => .error (.attributeError "object has no attribute split")

/-- `Errors.from_hash`: attribute-keyed message lists; keys that are not
record attributes file their messages under `base`.  Iterating a non-dict
raises. -/
def errorsFromHash (attrKeys : List String) (messages : PyVal)
    (errs : List (String × List PyVal)) :
    Except PyExn (List (String × List PyVal)) :=
  match messages with
  | .dict items =>
    items.foldlM (fun acc kv => do
      let msgs ← iterPy kv.2
      .ok (msgs.foldl (fun acc2 m =>
        if attrKeys.contains kv.1 then errAdd acc2 kv.1 m
        else errAdd acc2 "base" m) acc)) errs
  | _ => .error (.typeError "object is not iterable")

/-- `Errors.from_json`: parse (a `ValueError` yields `{}`), coerce falsy
decodes to `{}`; a dict with an `errors` key (or an empty dict) reads that
key — a list goes through the legacy array form, anything else through the
hash form; any other decode goes through the hash form directly. -/
def errorsFromJson (attrKeys : List String) (parsed : Except PyExn PyVal)
    (errs : List (String × List PyVal)) :
    Except PyExn (List (String × List PyVal)) :=
  match parsed with
  | .error (.valueError _) =>
      errorsFromJsonDecoded attrKeys (.dict []) errs
  | .error e => .error e
  | .ok d => errorsFromJsonDecoded attrKeys d errs
where
  errorsFromJsonDecoded (attrKeys : List String) (decoded₀ : PyVal)
      (errs : List (String × List PyVal)) :
      Except PyExn (List (String × List PyVal)) :=
    let decoded := if truthy decoded₀ then decoded₀ else .dict []
    match decoded with
    | .dict items =>
      if (pyGet items "errors").isSome || items.isEmpty then
        match (pyGet items "errors").getD (.dict []) with
        | .list msgs => errorsFromArray attrKeys msgs errs
        | other => errorsFromHash attrKeys other errs
      else errorsFromHash attrKeys (.dict items) errs
    | d => errorsFromHash attrKeys d errs

/-- Python `v[k]` subscripting on the shapes `from_xml` can meet. -/
def pySubscript (v : PyVal) (k : String) : Except PyExn PyVal :=
  match v with
  | .dict items =>
    match pyGet items k with
    | some x => .ok x
    | none => .error (.keyError k)
  | .null => .error (.typeError "NoneType object is not subscriptable")
  | _ => .error (.typeError "indices must be integers")

/-- `Errors.from_xml`: `xml_to_dict(xml_string)['errors']['error']`
normalized to a list, with only `util.Error` absorbed (yielding no
messages); the result feeds `from_array`.  `KeyError`/`TypeError` from the
subscripts propagate. -/
def errorsFromXml (env : Env) (attrKeys : List String) (s : String)
    (errs : List (String × List PyVal)) :
    Except PyExn (List (String × List PyVal)) :=
  let messagesE : Except PyExn (List PyVal) := do
    let d ← xmlToDictStr env s true
    let e1 ← pySubscript d "errors"
    let e2 ← pySubscript e1 "error"
    match e2 with
    | .list msgs => pure msgs
    | v => pure [v]
  match messagesE with
  | .error (.utilError _) => errorsFromArray attrKeys [] errs
  | .error e => .error e
  | .ok msgs => errorsFromArray attrKeys msgs errs

/-! ### `ActiveResource`: class configuration, paths, save protocol -/

inductive Fmt where
  | xml
  | json
  deriving DecidableEq, Inhabited

def fmtExtension : Fmt → String
  | .xml => "xml"
  | .json => "json"

/-- The class-level configuration consumed by the save/path code
(`_plural`, `_singular`, `primary_key`, `prefix_source`, `format`). -/
structure ResourceClass where
  plural : String
  singular : String
  primaryKey : String
  prefixSource : String
  fmt : Fmt

/-- A resource record: attribute dict, prefix options, error set.  Nested
records are represented by their attribute dictionaries (`to_dict` form);
the dynamic class tag attached by `_find_class_for` is outside these
claims. -/
structure Record where
  attributes : List (String × PyVal)
  prefixOptions : List (String × PyVal)
  errors : List (String × List PyVal)

def attrKeysOf (rec : Record) : List String := rec.attributes.map (·.1)

/-- `get_id`: `self.attributes.get(self.klass.primary_key)` (`None` when
absent). -/
def getId (cls : ResourceClass) (rec : Record) : PyVal :=
  (pyGet rec.attributes cls.primaryKey).getD .null

/-- `set_id`. -/
def setId (cls : ResourceClass) (rec : Record) (v : PyVal) : Record :=
  { rec with attributes := pySet rec.attributes cls.primaryKey v }

/-- `_query_string`: empty for falsy options, else `'?' + to_query(...)`
(`to_query`/`urlencode` is the external `urllib` encoder, in `env`). -/
def queryStr (urlencode : List (String × PyVal) → String)
    (queryOptions : List (String × PyVal)) : String :=
  if queryOptions.isEmpty then "" else "?" ++ urlencode queryOptions

/-- `_element_path(id_, prefix_options, query_options)`:
`prefix/plural/id.extension?query` (`%s`-rendered id). -/
def elementPath (urlencode : List (String × PyVal) → String)
    (cls : ResourceClass) (idv : PyVal)
    (prefixOpts queryOpts : List (String × PyVal)) : String :=
  prefixFn cls.prefixSource prefixOpts ++ "/" ++ cls.plural ++ "/" ++
    pyStr idv ++ "." ++ fmtExtension cls.fmt ++ queryStr urlencode queryOpts

/-- `_collection_path(prefix_options, query_options)`. -/
def collectionPath (urlencode : List (String × PyVal) → String)
    (cls : ResourceClass)
    (prefixOpts queryOpts : List (String × PyVal)) : String :=
  prefixFn cls.prefixSource prefixOpts ++ "/" ++ cls.plural ++ "." ++
    fmtExtension cls.fmt ++ queryStr urlencode queryOpts

/-- A `connection.Response`: code, body, header dict (plain `dict`, so
header lookup is case-sensitive). -/
structure HttpResponse where
  code : Int
  body : String
  headers : List (String × String)

/-- The suffix after the last `/`, or `none` when the string has no `/`
(the regex `\/([^\/]*?)(\.\w+)?$` then has no match). -/
def segAfterLastSlash (cs : List Char) : Option (List Char) :=
  if cs.contains '/' then
    some ((cs.reverse.takeWhile (fun c => c ≠ '/')).reverse)
  else none

/-- Drop a final `.\w+` extension (the last-dot suffix, when it is a
nonempty word-character run) from a path segment — the `(\.\w+)?$` part of
`_id_from_response`'s regex. -/
def stripExtension (seg : List Char) : List Char :=
  let post := (seg.reverse.takeWhile (fun c => c ≠ '.')).reverse
  if seg.contains '.' && !post.isEmpty && post.all isWordC then
    seg.take (seg.length - post.length - 1)
  else seg

/-- `_id_from_response`: search `re.search(r'\/([^\/]*?)(\.\w+)?$', loc)`
on the `Location` header (falling back to lowercase `location`, then `''`):
the match, when the text contains a `/`, captures the final path segment
minus any trailing extension; the capture is coerced with `int()` when it
parses, else kept as a string.  `none` models the implicit `None` return on
no match.  `idFromLoc` is that extraction applied to one location string. -/
def idFromLoc (loc : String) : Option PyVal :=
  match segAfterLastSlash loc.toList with
  | none => none
  | some seg =>
    let g := stripExtension seg
    match pyIntParse ⟨g⟩ with
    | some n => some (.int n)
    | none => some (.str ⟨g⟩)

def idFromResponse (resp : HttpResponse) : Option PyVal :=
  idFromLoc ((pyGet resp.headers "Location").getD
    ((pyGet resp.headers "location").getD ""))

/-! ### `_update` materialization -/

mutual

/-- The value rule of `_update`: a dict becomes a nested record (modelled
by its recursively-materialized attribute dict); a list is materialized
element-wise (dict elements become records, everything else is kept
as-is); any other value is stored unchanged. -/
def updateValRule : PyVal → PyVal
  | .dict items => .dict (updateItemsFn items)
  | .list xs => .list (updateElems xs)
  | v => v

def updateItemsFn : List (String × PyVal) → List (String × PyVal)
  | [] => []
  | (k, v) :: rest => (k, updateValRule v) :: updateItemsFn rest

def updateElems : List PyVal → List PyVal
  | [] => []
  | .dict items :: rest => .dict (updateItemsFn items) :: updateElems rest
  | o :: rest => o :: updateElems rest

end

/-- `_update(attributes)`: a non-dict input is a no-op; otherwise each
key/value pair is stored (full-value replace) after the value rule. -/
def recUpdate (rec : Record) (attrs : PyVal) : Record :=
  match attrs with
  | .dict items =>
    let newAttrs :=
      items.foldl (fun acc kv => pySet acc kv.1 (updateValRule kv.2))
        rec.attributes
    { rec with attributes := newAttrs }
  | _ => rec

/-! ### `save()` -/

inductive HttpMethod where
  | get
  | put
  | post
  | delete
  | head
  deriving DecidableEq

def methodName : HttpMethod → String
  | .get => "GET"
  | .put => "PUT"
  | .post => "POST"
  | .delete => "DELETE"
  | .head => "HEAD"

/-- `self.encode()`: `to_json`/`to_xml` of `to_dict()` with the singular
name as root (in this model record attributes are already in `to_dict`
form). -/
def encodeRecord (env : Env) (cls : ResourceClass) (rec : Record) :
    Except PyExn String :=
  match cls.fmt with
  | .json => toJson env (.dict rec.attributes) cls.singular
  | .xml => .ok (toXml env (.dict rec.attributes) cls.singular true true)

/-- The error-population step of `save()`'s `except ResourceInvalid`
handler: `from_xml` under the XML format, `from_json` under JSON. -/
def saveErrorsFromBody (env : Env) (cls : ResourceClass) (rec : Record)
    (body : String) : Except PyExn (List (String × List PyVal)) :=
  match cls.fmt with
  | .xml => errorsFromXml env (attrKeysOf rec) body rec.errors
  | .json => errorsFromJson (attrKeysOf rec) (env.jsonLoads body) rec.errors

/-- `self.klass.format.decode(...)`. -/
def formatDecode (env : Env) (cls : ResourceClass) (s : String) :
    Except PyExn PyVal :=
  match cls.fmt with
  | .xml => XMLFormatDecode env s
  | .json => JSONFormatDecode env s

/-- `ActiveResource.save()`, over an injected connection capability
`conn method path body`.  Clears errors; PUTs to the element path when
the primary key is truthy, else POSTs to the collection path and adopts a
truthy id extracted from the response's location headers; absorbs
`ResourceInvalid` into the error set and returns `False`; propagates every
other error; then merges a successfully-decoded non-empty body
(`formats.Error` alone is treated as nothing-to-merge). -/
def save (env : Env) (urlencode : List (String × PyVal) → String)
    (cls : ResourceClass) (rec : Record)
    (conn : HttpMethod → String → String → Except TransportErr HttpResponse) :
    Except PyExn (Bool × Record) :=
  let rec₀ : Record := { rec with errors := [] }
  let attempt : Except PyExn (HttpResponse × Record) :=
    if truthy (getId cls rec₀) then
      match encodeRecord env cls rec₀ with
      | .error e => .error e
      | .ok body =>
        match conn .put
            (elementPath urlencode cls (getId cls rec₀) rec₀.prefixOptions [])
            body with
        | .error te => .error (.transport te)
        | .ok resp => .ok (resp, rec₀)
    else
      match encodeRecord env cls rec₀ with
      | .error e => .error e
      | .ok body =>
        match conn .post
            (collectionPath urlencode cls rec₀.prefixOptions []) body with
        | .error te => .error (.transport te)
        | .ok resp =>
          let rec₁ :=
            match idFromResponse resp with
            | some v => if truthy v then setId cls rec₀ v else rec₀
            | none => rec₀
          .ok (resp, rec₁)
  match attempt with
  | .error (.transport (.resourceInvalid body)) =>
    match saveErrorsFromBody env cls rec₀ body with
    | .error e => .error e
    | .ok errs => .ok (false, { rec₀ with errors := errs })
  | .error e => .error e
  | .ok (resp, rec₁) =>
    match formatDecode env cls resp.body with
    | .error (.formatsError _) => .ok (true, rec₁)
    | .error e => .error e
    | .ok attrs => .ok (true, if truthy attrs then recUpdate rec₁ attrs
                              else rec₁)

/-- A connection that records the request it receives inside the error it
raises: since `save()` propagates every non-`ResourceInvalid` transport
error, the request `save()` makes is observable in its result. -/
def probeConn :
    HttpMethod → String → String → Except TransportErr HttpResponse :=
  fun m p _ => .error (.connectionErr (methodName m ++ " " ++ p))

/-! ### Concrete capability stubs used by witnesses and counterexamples

Each stub realizes an external library's behaviour on the single concrete
input a witness or counterexample feeds it; the surrounding doc comments
record the real library call being mimicked. -/

/-- A default inert environment. -/
def stubEnv : Env where
  jsonLoads := fun _ => .error (.valueError "stub")
  jsonDumps := fun _ => .ok ""
  etFromstring := fun _ => .error (.valueError "stub")
  etTostring := fun _ => ""
  dateParse := fun s => .ok s
  yamlLoad := fun _ => .error (.importError "stub")
  floatParse := fun s => .ok s
  decimalParse := fun s => .ok s
  singularizeFn := fun s => s

/-- A json stub for the C2 witness: dumps the wrapped witness value to a
fixed wire string and loads it back. -/
def witEnvC2 : Env :=
  { stubEnv with
    jsonDumps := fun _ => .ok "wire"
    jsonLoads := fun _ =>
      .ok (.dict [("object", .dict [("a", .int 3)])]) }

/-! ### Spec-level merge description for the XML children branch (C3) -/

/-- The per-tag merge the children-branch fold performs over the decoded
values of one tag, given the value currently stored under that tag:
each next value is appended when the stored value is a list, and
otherwise promotes the stored value into the two-element list
`[stored, next]`. -/
def mergedValues : Option PyVal → List PyVal → Option PyVal
  | cur, [] => cur
  | none, v :: vs => mergedValues (some v) vs
  | some cur, v :: vs =>
    match cur with
    | .list xs => mergedValues (some (.list (xs ++ [v]))) vs
    | _ => mergedValues (some (.list [cur, v])) vs

/-- The decoded values of the children carrying (normalized) tag `t`, in
document order (when all of them decode successfully). -/
def valuesFor (env : Env) (cs : List XmlElement) (t : String) :
    List PyVal :=
  cs.filterMap (fun c =>
    if charReplace '-' '_' c.tag = t then (xmlToDict env c false).toOption
    else none)

/-- C3's counterexample element:
`<a><b type="array"><c type="integer">1</c><c type="integer">2</c></b>`
`<b type="integer">3</b></a>`. -/
def treeC3 : XmlElement :=
  .mk "a" [] none
    [.mk "b" [("type", "array")] none
      [.mk "c" [("type", "integer")] (some "1") [],
       .mk "c" [("type", "integer")] (some "2") []],
     .mk "b" [("type", "integer")] (some "3") []]

/-! ### Concrete classes, records, responses and stubs for C5-C9 -/

/-- A urlencode stub (`to_query` is external `urllib`; every claim here
uses empty query options, for which `_query_string` never calls it). -/
def urlenc0 : List (String × PyVal) → String := fun _ => ""

def clsJson : ResourceClass :=
  { plural := "people", singular := "person", primaryKey := "id",
    prefixSource := "", fmt := .json }

def clsXml : ResourceClass :=
  { plural := "people", singular := "person", primaryKey := "id",
    prefixSource := "", fmt := .xml }

def recEmpty : Record := { attributes := [], prefixOptions := [], errors := [] }

/-- A record with a `name` attribute (for the error-parsing claims). -/
def recName : Record :=
  { attributes := [("name", .str "Bob")], prefixOptions := [], errors := [] }

/-- `Response` with header `Location: /people/7.json`. -/
def respLoc : HttpResponse :=
  { code := 201, body := "", headers := [("Location", "/people/7.json")] }

/-- `Response` with lowercase header `location: /people/7.json`. -/
def respLocLower : HttpResponse :=
  { code := 201, body := "", headers := [("location", "/people/7.json")] }

/-- The C8 XML error body and the element `xml.etree` parses it to. -/
def bodyC8 : String := "<errors><error>Name already exists</error></errors>"

def envC8 : Env :=
  { stubEnv with
    etFromstring := fun s =>
      if s = bodyC8 then
        .ok (.mk "errors" [] none
          [.mk "error" [] (some "Name already exists") []])
      else .error (.valueError "stub") }

/-- The C6 counterexample: a well-formed XML success body whose typed
content fails integer conversion — `<x type="integer">abc</x>`. -/
def bodyC6 : String := "<x type=\"integer\">abc</x>"

def envC6 : Env :=
  { stubEnv with
    etFromstring := fun s =>
      if s = bodyC6 then
        .ok (.mk "x" [("type", "integer")] (some "abc") [])
      else .error (.valueError "stub") }

/-! ## Theorems -/

/-- Claim C2 — JSON round-trip.  For a structured value expressible in
JSON, `JSONFormat.decode (JSONFormat.encode v) = v`: encode wraps `v`
under the single root key `'object'` (first conjunct) and dumps; decode
loads and strips a single-keyed outer map (second conjunct).  The third
conjunct is the full pipeline, assuming the stdlib `json` module's
dumps/loads round-trip contract at the wrapped value. -/
theorem claim_C2 (env : Env) (v : PyVal)
    (_hexpr : jsonExpressible v = true)
    (hjson : (env.jsonDumps (PyVal.dict [("object", v)])).bind env.jsonLoads
      = .ok (PyVal.dict [("object", v)])) :
    toJsonVal v "object" = PyVal.dict [("object", v)] ∧
    (∀ root w, removeRoot (PyVal.dict [(root, w)]) = w) ∧
    (JSONFormatEncode env v).bind (JSONFormatDecode env) = .ok v := by
  refine ⟨rfl, fun root w => rfl, ?_⟩
  have hwrap : JSONFormatEncode env v =
      env.jsonDumps (PyVal.dict [("object", v)]) := by
    simp [JSONFormatEncode, toJson, toJsonVal]
  rw [hwrap]
  cases hd : env.jsonDumps (PyVal.dict [("object", v)]) with
  | error e => rw [hd] at hjson; simp [Except.bind] at hjson
  | ok s =>
    rw [hd] at hjson
    simp [Except.bind] at hjson ⊢
    rw [JSONFormatDecode, hjson]
    rfl

/-- Witness for C2 at a concrete value and a concrete two-value json
stub. -/
theorem claim_C2_witness :
    jsonExpressible (PyVal.dict [("a", PyVal.int 3)]) = true ∧
    ((witEnvC2.jsonDumps
        (PyVal.dict [("object", PyVal.dict [("a", PyVal.int 3)])])).bind
      witEnvC2.jsonLoads
      = .ok (PyVal.dict [("object", PyVal.dict [("a", PyVal.int 3)])])) ∧
    (JSONFormatEncode witEnvC2 (PyVal.dict [("a", PyVal.int 3)])).bind
        (JSONFormatDecode witEnvC2)
      = .ok (PyVal.dict [("a", PyVal.int 3)]) := by
  refine ⟨rfl, rfl, ?_⟩
  exact (claim_C2 witEnvC2 (PyVal.dict [("a", PyVal.int 3)]) rfl rfl).2.2

/-! ### Support lemmas for the template scanner (claim C4) -/

/-- `takeWhile` of an all-satisfying list is itself. -/
theorem takeWhile_of_all (p : Char → Bool) (xs : List Char)
    (h : xs.all p = true) : xs.takeWhile p = xs := by
  induction xs with
  | nil => simp
  | cons c cs ih =>
    simp only [List.all_cons, Bool.and_eq_true] at h
    simp [List.takeWhile_cons, h.1, ih h.2]

/-- `dropWhile` of an all-satisfying list is empty. -/
theorem dropWhile_of_all (p : Char → Bool) (xs : List Char)
    (h : xs.all p = true) : xs.dropWhile p = [] := by
  induction xs with
  | nil => simp
  | cons c cs ih =>
    simp only [List.all_cons, Bool.and_eq_true] at h
    simp [List.dropWhile_cons, h.1, ih h.2]

theorem takeWhile_append_cases (p : Char → Bool) (xs ys : List Char) :
    (xs ++ ys).takeWhile p =
      if xs.all p then xs ++ ys.takeWhile p else xs.takeWhile p := by
  induction xs with
  | nil => simp
  | cons c cs ih =>
    by_cases hc : p c
    · by_cases hall : cs.all p
      · rw [if_pos (by simp [hc, hall])]
        simp [List.takeWhile_cons, hc, ih, hall]
      · rw [if_neg (by simp [hall])]
        simp [List.takeWhile_cons, hc, ih, hall]
    · rw [if_neg (by simp [hc])]
      simp [List.takeWhile_cons, hc]

theorem dropWhile_append_cases (p : Char → Bool) (xs ys : List Char) :
    (xs ++ ys).dropWhile p =
      if xs.all p then ys.dropWhile p else xs.dropWhile p ++ ys := by
  induction xs with
  | nil => simp
  | cons c cs ih =>
    by_cases hc : p c
    · by_cases hall : cs.all p
      · rw [if_pos (by simp [hc, hall])]
        simp [List.dropWhile_cons, hc, ih, hall]
      · rw [if_neg (by simp [hall])]
        simp [List.dropWhile_cons, hc, ih, hall]
    · rw [if_neg (by simp [hc])]
      simp [List.dropWhile_cons, hc]

/-- Appending the `/` that `stripOneTrailingSlash` removes never changes
the placeholder names the `Template` pattern scan finds. -/
theorem all_of_dropWhile_eq_nil (p : Char → Bool) (xs : List Char)
    (h : xs.dropWhile p = []) : xs.all p = true := by
  induction xs with
  | nil => simp
  | cons c cs ih =>
    by_cases hc : p c
    · rw [List.dropWhile_cons, if_pos hc] at h
      simp [hc, ih h]
    · rw [List.dropWhile_cons, if_neg hc] at h
      exact absurd h (by simp)

/-- Appending the `/` that `stripOneTrailingSlash` removes never changes
the placeholder names the `Template` pattern scan finds. -/
theorem tokenNames_append_slash (ds : List Char) :
    tokenNames (tmplTokens (ds ++ ['/'])) = tokenNames (tmplTokens ds) := by
  induction ds using tmplTokens.induct with
  | case1 =>
    simp [tmplTokens, tokenNames]
  | case2 =>
    simp [tmplTokens, tokenNames, isIdStart, isAlphaA, isUpperA, isLowerA,
      isDig]
  | case3 rest ih =>
    simp only [List.cons_append, tmplTokens, tokenNames]
    exact ih
  | case4 rest nm rm hcond ih =>
    simp only [nm, rm] at hcond ih
    have hne : rest.dropWhile isIdChar ≠ [] := by
      intro hnil
      rw [hnil] at hcond
      simp at hcond
    have hnall : rest.all isIdChar = false := by
      cases h : rest.all isIdChar
      · rfl
      · exact absurd (dropWhile_of_all _ _ h) hne
    obtain ⟨a, as, hcase⟩ : ∃ a as, rest.dropWhile isIdChar = a :: as := by
      cases h : rest.dropWhile isIdChar with
      | nil => exact absurd h hne
      | cons a as => exact ⟨a, as, rfl⟩
    have ht := takeWhile_append_cases isIdChar rest ['/']
    have hd := dropWhile_append_cases isIdChar rest ['/']
    rw [hnall] at ht hd
    simp only [Bool.false_eq_true, if_false] at ht hd
    simp only [List.cons_append, tmplTokens, ht, hd, hcase]
    rw [hcase] at hcond ih
    simp only [List.cons_append, List.head?_cons, List.tail_cons] at hcond ih ⊢
    rw [if_pos hcond, if_pos hcond]
    simp only [tokenNames]
    congr 1
  | case5 rest nm rm hcond ih =>
    simp only [nm, rm] at hcond
    by_cases hall : rest.all isIdChar = true
    · have h2 : List.takeWhile isIdChar ['/'] = [] := by decide
      have h3 : List.dropWhile isIdChar ['/'] = ['/'] := by decide
      have ht : List.takeWhile isIdChar (rest ++ ['/']) = rest := by
        rw [takeWhile_append_cases]
        simp [hall, h2]
      have hd : List.dropWhile isIdChar (rest ++ ['/']) = ['/'] := by
        rw [dropWhile_append_cases]
        simp [hall, h3]
      simp only [List.cons_append, tmplTokens, ht, hd]
      rw [if_neg (by simp), if_neg hcond]
      simp only [tokenNames]
      simpa [List.cons_append] using ih
    · have hnall : rest.all isIdChar = false := by
        cases h : rest.all isIdChar
        · rfl
        · exact absurd h hall
      have hne : rest.dropWhile isIdChar ≠ [] := by
        intro hnil
        exact hall (all_of_dropWhile_eq_nil _ _ hnil)
      obtain ⟨a, as, hcase⟩ : ∃ a as, rest.dropWhile isIdChar = a :: as := by
        cases h : rest.dropWhile isIdChar with
        | nil => exact absurd h hne
        | cons a as => exact ⟨a, as, rfl⟩
      have ht := takeWhile_append_cases isIdChar rest ['/']
      have hd := dropWhile_append_cases isIdChar rest ['/']
      rw [hnall] at ht hd
      simp only [Bool.false_eq_true, if_false] at ht hd
      simp only [List.cons_append, tmplTokens, ht, hd, hcase]
      rw [hcase] at hcond
      simp only [List.cons_append, List.head?_cons] at hcond ⊢
      rw [if_neg hcond, if_neg hcond]
      simp only [tokenNames]
      simpa [List.cons_append] using ih
  | case6 c rest hc1 hc2 hstart ih =>
    have hcne : ¬(c = '$') := fun h => hc1 h
    have hcne2 : ¬(c = '{') := fun h => hc2 h
    by_cases hall : rest.all isIdChar = true
    · have h2 : List.takeWhile isIdChar ['/'] = [] := by decide
      have h3 : List.dropWhile isIdChar ['/'] = ['/'] := by decide
      have ht : List.takeWhile isIdChar (rest ++ ['/']) = rest := by
        rw [takeWhile_append_cases]
        simp [hall, h2]
      have hd : List.dropWhile isIdChar (rest ++ ['/']) = ['/'] := by
        rw [dropWhile_append_cases]
        simp [hall, h3]
      rw [dropWhile_of_all _ _ hall] at ih
      simp only [List.cons_append]
      rw [show tmplTokens ('$' :: c :: (rest ++ ['/'])) =
          .placeholder ⟨c :: List.takeWhile isIdChar (rest ++ ['/'])⟩ false ::
            tmplTokens (List.dropWhile isIdChar (rest ++ ['/'])) from by
        simp [tmplTokens, hcne, hcne2, hstart]]
      rw [show tmplTokens ('$' :: c :: rest) =
          .placeholder ⟨c :: List.takeWhile isIdChar rest⟩ false ::
            tmplTokens (List.dropWhile isIdChar rest) from by
        simp [tmplTokens, hcne, hcne2, hstart]]
      rw [ht, hd, takeWhile_of_all _ _ hall, dropWhile_of_all _ _ hall]
      simp only [tokenNames]
      simpa using ih
    · have hnall : rest.all isIdChar = false := by
        cases h : rest.all isIdChar
        · rfl
        · exact absurd h hall
      have ht := takeWhile_append_cases isIdChar rest ['/']
      have hd := dropWhile_append_cases isIdChar rest ['/']
      rw [hnall] at ht hd
      simp only [Bool.false_eq_true, if_false] at ht hd
      simp only [List.cons_append]
      rw [show tmplTokens ('$' :: c :: (rest ++ ['/'])) =
          .placeholder ⟨c :: List.takeWhile isIdChar (rest ++ ['/'])⟩ false ::
            tmplTokens (List.dropWhile isIdChar (rest ++ ['/'])) from by
        simp [tmplTokens, hcne, hcne2, hstart]]
      rw [show tmplTokens ('$' :: c :: rest) =
          .placeholder ⟨c :: List.takeWhile isIdChar rest⟩ false ::
            tmplTokens (List.dropWhile isIdChar rest) from by
        simp [tmplTokens, hcne, hcne2, hstart]]
      rw [ht, hd]
      simp only [tokenNames]
      congr 1
  | case7 c rest hc1 hc2 hstart ih =>
    have hcne : ¬(c = '$') := fun h => hc1 h
    have hcne2 : ¬(c = '{') := fun h => hc2 h
    simp only [List.cons_append]
    rw [show tmplTokens ('$' :: c :: (rest ++ ['/'])) =
        .invalid :: tmplTokens (c :: (rest ++ ['/'])) from by
      simp [tmplTokens, hcne, hcne2, hstart]]
    rw [show tmplTokens ('$' :: c :: rest) =
        .invalid :: tmplTokens (c :: rest) from by
      simp [tmplTokens, hcne, hcne2, hstart]]
    simp only [tokenNames]
    simpa [List.cons_append] using ih
  | case8 c rest h1 h2 h3 h4 ih =>
    have hcne : ¬(c = '$') := by
      intro hc
      cases rest with
      | nil => exact h1 hc rfl
      | cons x xs => exact h4 x xs hc rfl
    have e1 : tmplTokens ((c :: rest) ++ ['/']) =
        .lit c :: tmplTokens (rest ++ ['/']) := by
      cases rest with
      | nil => simp [tmplTokens, hcne]
      | cons x xs => simp [tmplTokens, hcne]
    have e2 : tmplTokens (c :: rest) = .lit c :: tmplTokens rest := by
      cases rest with
      | nil => simp [tmplTokens, hcne]
      | cons x xs => simp [tmplTokens, hcne]
    rw [e1, e2]
    simp only [tokenNames]
    exact ih

/-- `safe_substitute` with a mapping that covers every scanned placeholder
(with value `f name`) is total substitution by `f`. -/
theorem safeSubstitute_eq_substituteAll (ts : List TmplToken)
    (m : List (String × String)) (f : String → String)
    (h : ∀ name ∈ tokenNames ts, pyGet m name = some (f name)) :
    safeSubstitute ts m = substituteAll ts f := by
  induction ts with
  | nil => rfl
  | cons t rest ih =>
    cases t with
    | lit c =>
      simp only [safeSubstitute, substituteAll]
      rw [ih (fun n hn => h n (by simpa [tokenNames] using hn))]
    | escaped =>
      simp only [safeSubstitute, substituteAll]
      rw [ih (fun n hn => h n (by simpa [tokenNames] using hn))]
    | invalid =>
      simp only [safeSubstitute, substituteAll]
      rw [ih (fun n hn => h n (by simpa [tokenNames] using hn))]
    | placeholder name braced =>
      have hm := h name (by simp [tokenNames])
      simp only [safeSubstitute, substituteAll, hm]
      rw [ih (fun n hn => h n (by simp [tokenNames, hn]))]

theorem pyGet_map_self (keys : List String) (g : String → String)
    (name : String) (h : name ∈ keys) :
    pyGet (keys.map (fun k => (k, g k))) name = some (g name) := by
  induction keys with
  | nil => simp at h
  | cons k ks ih =>
    by_cases hk : k = name
    · subst hk
      simp [pyGet]
    · rcases List.mem_cons.1 h with h1 | h2
      · exact absurd h1.symm hk
      · simpa [pyGet, hk] using ih h2

/-- Stripping one trailing slash before tokenizing does not change the
scanned placeholder names. -/
theorem tokenNames_strip (tmpl : String) :
    tokenNames (tmplTokens (stripOneTrailingSlash tmpl).toList) =
      tokenNames (tmplTokens tmpl.toList) := by
  unfold stripOneTrailingSlash
  by_cases h : tmpl.toList.getLast? = some '/'
  · rw [if_pos h]
    have hne : tmpl.toList ≠ [] := by
      intro hnil
      rw [hnil] at h
      simp at h
    have hlast : tmpl.toList.getLast hne = '/' := by
      have h2 := List.getLast?_eq_getLast tmpl.toList hne
      rw [h2] at h
      exact Option.some.inj h
    have hsplit : tmpl.toList.dropLast ++ ['/'] = tmpl.toList := by
      rw [← hlast]
      exact List.dropLast_append_getLast hne
    have htl : (⟨tmpl.toList.dropLast⟩ : String).toList =
        tmpl.toList.dropLast := rfl
    rw [htl]
    conv_rhs => rw [← hsplit]
    exact (tokenNames_append_slash _).symm
  · rw [if_neg h]

/-- Claim C4 — prefix rendering.  `_prefix(options)` equals: strip one
trailing slash from the raw template, substitute every placeholder with
the matching (str-rendered) options entry or the empty string when the
entry is missing, then strip leading slashes.  Totality of the right-hand
side (it is a total function) is the claim's "never raises". -/
theorem claim_C4 (tmpl : String) (opts : List (String × PyVal)) :
    prefixFn tmpl opts =
      stripLeadingSlashes
        (substituteAll (tmplTokens (stripOneTrailingSlash tmpl).toList)
          (fun name =>
            match pyGet opts name with
            | some v => pyStr v
            | none => "")) := by
  unfold prefixFn
  simp only []
  congr 1
  apply safeSubstitute_eq_substituteAll
  intro name hname
  apply pyGet_map_self
  unfold prefixParameters
  rw [List.mem_dedup]
  rw [← tokenNames_strip]
  exact hname

/-! ### Decimal-digit round-trip: `int(str(n)) = n` -/

theorem isDig_digitChar : ∀ k, k < 10 → isDig (digitChar k) = true := by
  decide

theorem digitVal_digitChar : ∀ k, k < 10 → digitVal (digitChar k) = k := by
  decide

theorem toNat_digitChar : ∀ k, k < 10 → (digitChar k).toNat = 48 + k := by
  decide

theorem natDigits_ne_nil (n : Nat) : natDigits n ≠ [] := by
  rw [natDigits]
  split
  · simp
  · simp

theorem natDigits_all_dig (n : Nat) : ∀ c ∈ natDigits n, isDig c = true := by
  induction n using Nat.strong_induction_on with
  | _ n ih =>
    rw [natDigits]
    split
    next h =>
      intro c hc
      simp at hc
      subst hc
      exact isDig_digitChar n h
    next h =>
      intro c hc
      rw [List.mem_append] at hc
      rcases hc with hc | hc
      · exact ih (n / 10) (Nat.div_lt_self (by omega) (by omega)) c hc
      · simp at hc
        subst hc
        exact isDig_digitChar (n % 10) (Nat.mod_lt _ (by omega))

theorem pyDigitsCore_digits (cs : List Char) (acc : Nat)
    (h : ∀ c ∈ cs, isDig c = true) :
    pyDigitsCore cs acc =
      some (cs.foldl (fun a c => a * 10 + digitVal c) acc) := by
  induction cs generalizing acc with
  | nil => simp [pyDigitsCore]
  | cons c rest ih =>
    have hc := h c (by simp)
    rw [pyDigitsCore.eq_def]
    simp only [List.foldl_cons, hc, if_true]
    exact ih _ (fun x hx => h x (by simp [hx]))

theorem foldl_natDigits (n : Nat) :
    ∀ acc, (natDigits n).foldl (fun a c => a * 10 + digitVal c) acc =
      acc * 10 ^ (natDigits n).length + n := by
  induction n using Nat.strong_induction_on with
  | _ n ih =>
    intro acc
    rw [natDigits]
    split
    next h =>
      simp [digitVal_digitChar n h]
    next h =>
      rw [List.foldl_append, ih (n / 10) (Nat.div_lt_self (by omega)
        (by omega)), List.length_append]
      simp only [List.foldl_cons, List.foldl_nil, List.length_cons,
        List.length_nil, Nat.zero_add]
      rw [digitVal_digitChar (n % 10) (Nat.mod_lt _ (by omega))]
      have hmod := Nat.div_add_mod n 10
      have hpow : (10:Nat) ^ ((natDigits (n / 10)).length + 1) =
          10 ^ (natDigits (n / 10)).length * 10 := pow_succ 10 _
      rw [hpow]
      calc (acc * 10 ^ (natDigits (n / 10)).length + n / 10) * 10 + n % 10
          = acc * (10 ^ (natDigits (n / 10)).length * 10) +
              (n / 10 * 10 + n % 10) := by ring
        _ = acc * (10 ^ (natDigits (n / 10)).length * 10) + n :=
              congrArg (fun t =>
                acc * (10 ^ (natDigits (n / 10)).length * 10) + t)
                (by omega)

theorem parseUnsigned_natDigits (n : Nat) :
    parseUnsigned (natDigits n) = some n := by
  have hne := natDigits_ne_nil n
  have hall := natDigits_all_dig n
  have h0 : (natDigits n).foldl (fun a c => a * 10 + digitVal c) 0 = n := by
    rw [foldl_natDigits]
    simp
  cases hcase : natDigits n with
  | nil => exact absurd hcase hne
  | cons c cs =>
    have hc : isDig c = true := hall c (by rw [hcase]; simp)
    simp only [parseUnsigned, hc, if_true]
    rw [pyDigitsCore_digits cs (digitVal c)
      (fun x hx => hall x (by rw [hcase]; simp [hx]))]
    rw [hcase] at h0
    simp only [List.foldl_cons, Nat.zero_mul, Nat.zero_add] at h0
    rw [h0]

theorem isPySpace_false_of_isDig (c : Char) (h : isDig c = true) :
    isPySpace c = false := by
  simp [isDig] at h
  simp [isPySpace]
  omega

theorem dropWhile_of_all_false (p : Char → Bool) (cs : List Char)
    (h : ∀ c ∈ cs, p c = false) : cs.dropWhile p = cs := by
  cases cs with
  | nil => rfl
  | cons c rest => rw [List.dropWhile_cons, if_neg (by simp [h c (by simp)])]

theorem pyStrip_of_nonspace (cs : List Char)
    (h : ∀ c ∈ cs, isPySpace c = false) : pyStrip cs = cs := by
  unfold pyStrip
  rw [dropWhile_of_all_false _ _ h,
    dropWhile_of_all_false _ _ (fun c hc => h c (List.mem_reverse.1 hc))]
  simp

theorem ne_sign_of_isDig (c : Char) (h : isDig c = true) :
    ¬(c = '-') ∧ ¬(c = '+') := by
  constructor
  · intro he
    subst he
    simp [isDig] at h
  · intro he
    subst he
    simp [isDig] at h

/-- `int(str(k)) = k`: Python's int literal syntax inverts `str` on every
int. -/
theorem pyIntParse_intStr (k : Int) : pyIntParse (intStr k) = some k := by
  by_cases hk : k < 0
  · unfold intStr pyIntParse
    rw [if_pos hk]
    have htl : (⟨'-' :: natDigits k.natAbs⟩ : String).toList =
        '-' :: natDigits k.natAbs := rfl
    rw [htl]
    rw [pyStrip_of_nonspace _ (by
      intro c hc
      rcases List.mem_cons.1 hc with h1 | h2
      · subst h1
        decide
      · exact isPySpace_false_of_isDig c (natDigits_all_dig _ c h2))]
    simp [parseUnsigned_natDigits]
    simp [abs_of_neg hk]
  · unfold intStr pyIntParse
    rw [if_neg hk]
    have htl : (⟨natDigits k.toNat⟩ : String).toList =
        natDigits k.toNat := rfl
    rw [htl]
    rw [pyStrip_of_nonspace _ (fun c hc =>
      isPySpace_false_of_isDig c (natDigits_all_dig _ c hc))]
    cases hcase : natDigits k.toNat with
    | nil => exact absurd hcase (natDigits_ne_nil _)
    | cons c cs =>
      have hc : isDig c = true :=
        natDigits_all_dig _ c (by rw [hcase]; simp)
      have hsig := ne_sign_of_isDig c hc
      simp [hsig.1, hsig.2]
      rw [← hcase, parseUnsigned_natDigits]
      simp
      omega

/-! ### base64 round-trip -/

theorem b64val_b64char : ∀ s : Fin 64, b64val (b64char s) = some s := by
  decide

theorem b64char_ne_pad : ∀ s : Fin 64, ¬(b64char s = '=') := by
  decide

theorem b64char_ascii : ∀ s : Fin 64, (b64char s).toNat < 128 := by
  decide

/-- `b64decode(b64encode(bs)) = bs`: the bytes row of the codec's scalar
table round-trips. -/
theorem b64_roundtrip (bs : List (Fin 256)) :
    b64decodeChars (b64encodeChars bs) = some bs := by
  induction bs using b64encodeChars.induct with
  | case1 => rfl
  | case2 b =>
    rw [b64encodeChars, b64decodeChars.eq_def]
    simp [b64val_b64char, b64byte1, Fin.ext_iff]
    omega
  | case3 b1 b2 =>
    rw [b64encodeChars, b64decodeChars.eq_def]
    simp [b64val_b64char, b64char_ne_pad, b64byte1, b64byte2, Fin.ext_iff]
    constructor
    · omega
    · omega
  | case4 b1 b2 b3 rest ih =>
    rw [b64encodeChars]
    simp only [List.cons_append, List.nil_append]
    rw [b64decodeChars.eq_def]
    simp [b64val_b64char, b64char_ne_pad, b64byte1, b64byte2, b64byte3, ih,
      Fin.ext_iff]
    refine ⟨by omega, by omega, by omega⟩

/-! ### `strptime('%Y-%m-%d')` inverts `str(date)` -/

theorem digitChar_zero : digitChar 0 = '0' := by decide

theorem natDigits_small (n : Nat) (h : n < 10) :
    natDigits n = [digitChar n] := by
  rw [natDigits, dif_pos h]

theorem natDigits_two (n : Nat) (h1 : 10 ≤ n) (h2 : n < 100) :
    natDigits n = [digitChar (n / 10), digitChar (n % 10)] := by
  rw [natDigits, dif_neg (by omega), natDigits_small (n / 10) (by omega)]
  rfl

theorem natDigits_three (n : Nat) (h1 : 100 ≤ n) (h2 : n < 1000) :
    natDigits n =
      [digitChar (n / 100), digitChar (n / 10 % 10), digitChar (n % 10)] := by
  rw [natDigits, dif_neg (by omega), natDigits_two (n / 10) (by omega)
    (by omega)]
  rw [show n / 10 / 10 = n / 100 from by omega]
  rfl

theorem natDigits_four (n : Nat) (h1 : 1000 ≤ n) (h2 : n < 10000) :
    natDigits n =
      [digitChar (n / 1000), digitChar (n / 100 % 10),
       digitChar (n / 10 % 10), digitChar (n % 10)] := by
  rw [natDigits, dif_neg (by omega), natDigits_three (n / 10) (by omega)
    (by omega)]
  rw [show n / 10 / 100 = n / 1000 from by omega,
    show n / 10 / 10 % 10 = n / 100 % 10 from by omega]
  rfl

theorem pad2_digits (m : Nat) (h : m ≤ 99) :
    padZero 2 (natDigits m) = [digitChar (m / 10), digitChar (m % 10)] := by
  by_cases hm : m < 10
  · rw [natDigits_small m hm]
    simp [padZero]
    rw [show m / 10 = 0 from by omega, show m % 10 = m from by omega,
      digitChar_zero]
    simp [List.replicate]
  · rw [natDigits_two m (by omega) (by omega)]
    simp [padZero, List.replicate]

theorem pad4_digits (y : Nat) (h : y ≤ 9999) :
    padZero 4 (natDigits y) =
      [digitChar (y / 1000), digitChar (y / 100 % 10),
       digitChar (y / 10 % 10), digitChar (y % 10)] := by
  by_cases h1 : y < 10
  · rw [natDigits_small y h1]
    simp [padZero, List.replicate]
    rw [show y / 1000 = 0 from by omega, show y / 100 % 10 = 0 from by omega,
      show y / 10 % 10 = 0 from by omega, show y % 10 = y from by omega,
      digitChar_zero]
    simp
  · by_cases h2 : y < 100
    · rw [natDigits_two y (by omega) h2]
      simp [padZero, List.replicate]
      rw [show y / 1000 = 0 from by omega,
        show y / 100 % 10 = 0 from by omega,
        show y / 10 % 10 = y / 10 from by omega, digitChar_zero]
      simp
    · by_cases h3 : y < 1000
      · rw [natDigits_three y (by omega) h3]
        simp [padZero, List.replicate]
        rw [show y / 1000 = 0 from by omega,
          show y / 100 % 10 = y / 100 from by omega, digitChar_zero]
        simp
      · rw [natDigits_four y (by omega) (by omega)]
        simp [padZero, List.replicate]

theorem parseMonth2_pad (m : Nat) (h1 : 1 ≤ m) (h2 : m ≤ 12)
    (rest : List Char) :
    parseMonth2 (padZero 2 (natDigits m) ++ rest) = some (m, rest) := by
  rw [pad2_digits m (by omega)]
  simp only [List.cons_append, List.nil_append, parseMonth2]
  rw [toNat_digitChar (m / 10) (by omega), toNat_digitChar (m % 10)
    (by omega)]
  by_cases hm : m < 10
  · rw [if_neg (by simp; omega), if_pos (by simp; omega)]
    rw [digitVal_digitChar (m % 10) (by omega)]
    rw [show m % 10 = m from by omega]
  · rw [if_pos (by simp; omega)]
    rw [digitVal_digitChar (m % 10) (by omega)]
    rw [show 10 + m % 10 = m from by omega]

theorem parseDay2_pad (d : Nat) (h1 : 1 ≤ d) (h2 : d ≤ 31)
    (rest : List Char) :
    parseDay2 (padZero 2 (natDigits d) ++ rest) = some (d, rest) := by
  rw [pad2_digits d (by omega)]
  simp only [List.cons_append, List.nil_append, parseDay2]
  rw [toNat_digitChar (d / 10) (by omega), toNat_digitChar (d % 10)
    (by omega)]
  by_cases hd1 : d < 10
  · rw [if_neg (by simp; omega), if_neg (by simp; omega),
      if_pos (by simp; omega)]
    rw [digitVal_digitChar (d % 10) (by omega)]
    rw [show d % 10 = d from by omega]
  · by_cases hd2 : d < 30
    · rw [if_neg (by simp; omega),
        if_pos (by
          simp [isDig, toNat_digitChar (d / 10) (by omega),
            toNat_digitChar (d % 10) (by omega)]
          omega)]
      rw [digitVal_digitChar (d / 10) (by omega),
        digitVal_digitChar (d % 10) (by omega)]
      rw [show d / 10 * 10 + d % 10 = d from by omega]
    · rw [if_pos (by simp; omega)]
      rw [digitVal_digitChar (d % 10) (by omega)]
      rw [show 30 + d % 10 = d from by omega]

/-- `strptime(str(date(y, m, d)), '%Y-%m-%d')` parses back the components
of any representable date. -/
theorem parseYmd_dateStr (y m d : Nat) (hy1 : 1 ≤ y) (hy2 : y ≤ 9999)
    (hm1 : 1 ≤ m) (hm2 : m ≤ 12) (hd1 : 1 ≤ d) (hd2 : d ≤ 31) :
    parseYmd (dateStr y m d).toList = some (y, m, d) := by
  have htl : (dateStr y m d).toList =
      padZero 4 (natDigits y) ++ '-' :: padZero 2 (natDigits m) ++
        '-' :: padZero 2 (natDigits d) := rfl
  rw [htl, pad4_digits y hy2]
  simp only [List.cons_append, List.nil_append, parseYmd]
  rw [if_pos (by
    simp [isDig_digitChar (y / 1000) (by omega),
      isDig_digitChar (y / 100 % 10) (by omega),
      isDig_digitChar (y / 10 % 10) (by omega),
      isDig_digitChar (y % 10) (by omega)])]
  rw [parseMonth2_pad m hm1 hm2]
  simp only []
  rw [← List.append_nil (padZero 2 (natDigits d)), parseDay2_pad d hd1 hd2 []]
  simp only []
  rw [digitVal_digitChar (y / 1000) (by omega),
    digitVal_digitChar (y / 100 % 10) (by omega),
    digitVal_digitChar (y / 10 % 10) (by omega),
    digitVal_digitChar (y % 10) (by omega)]
  rw [show ((y / 1000 * 10 + y / 100 % 10) * 10 + y / 10 % 10) * 10 +
      y % 10 = y from by omega]

/-! ### Scalar codec rows (claim C1) -/

theorem toXmlElement_null (env : Env) (root : String) (dash : Bool) :
    toXmlElement env .null root dash =
      .mk (if dash then charReplace '_' '-' root else root)
        [("nil", "true")] none [] := by
  rw [toXmlElement.eq_def]
  rfl

theorem xmlToDict_nil_leaf (env : Env) (tag : String) (sr : Bool) :
    xmlToDict env (.mk tag [("nil", "true")] none []) sr = .ok .null := by
  rw [xmlToDict.eq_def]
  simp [pyGet, pyLower]

theorem c1_rt_null (env : Env) (root : String) (dash : Bool) (sr : Bool) :
    xmlToDict env (toXmlElement env .null root dash) sr = .ok .null := by
  rw [toXmlElement_null, xmlToDict_nil_leaf]

theorem toXmlElement_bool (env : Env) (root : String) (dash : Bool)
    (b : Bool) :
    toXmlElement env (.bool b) root dash =
      .mk (if dash then charReplace '_' '-' root else root)
        [("type", "boolean")] (some (if b then "true" else "false")) [] := by
  rw [toXmlElement.eq_def]
  rfl

theorem xmlToDict_boolean_leaf (env : Env) (tag : String) (sr : Bool)
    (t : String) :
    xmlToDict env (.mk tag [("type", "boolean")] (some t) []) sr =
      .ok (.bool (if t = "" then false
                  else (pyStrip t.toList = "true".toList ||
                        pyStrip t.toList = "1".toList))) := by
  rw [xmlToDict.eq_def]
  have hlow : pyLower "boolean" = "boolean" := rfl
  by_cases ht : t = ""
  · simp [pyGet, hlow, ht]
  · simp [pyGet, hlow, ht]

theorem c1_rt_bool (env : Env) (root : String) (dash : Bool) (sr : Bool)
    (b : Bool) :
    xmlToDict env (toXmlElement env (.bool b) root dash) sr =
      .ok (.bool b) := by
  rw [toXmlElement_bool, xmlToDict_boolean_leaf]
  cases b
  · simp
    decide
  · simp
    decide

theorem toXmlElement_int (env : Env) (root : String) (dash : Bool)
    (n : Int) :
    toXmlElement env (.int n) root dash =
      .mk (if dash then charReplace '_' '-' root else root)
        [("type", "integer")] (some (intStr n)) [] := by
  rw [toXmlElement.eq_def]
  rfl

theorem intStr_ne_empty (n : Int) : intStr n ≠ "" := by
  unfold intStr
  split
  · intro h
    have := congrArg String.toList h
    simp at this
  · intro h
    have h2 := congrArg String.toList h
    have h3 : (⟨natDigits n.toNat⟩ : String).toList = natDigits n.toNat :=
      rfl
    rw [h3] at h2
    exact natDigits_ne_nil _ (by simpa using h2)

theorem xmlToDict_integer_leaf (env : Env) (tag : String) (sr : Bool)
    (t : String) (ht : t ≠ "") (n : Int) (hp : pyIntParse t = some n) :
    xmlToDict env (.mk tag [("type", "integer")] (some t) []) sr =
      .ok (.int n) := by
  rw [xmlToDict.eq_def]
  have hlow : pyLower "integer" = "integer" := rfl
  simp [pyGet, hlow, ht, hp, noText]

theorem c1_rt_int (env : Env) (root : String) (dash : Bool) (sr : Bool)
    (n : Int) :
    xmlToDict env (toXmlElement env (.int n) root dash) sr =
      .ok (.int n) := by
  rw [toXmlElement_int, xmlToDict_integer_leaf env _ sr (intStr n)
    (intStr_ne_empty n) n (pyIntParse_intStr n)]

theorem toXmlElement_bytes (env : Env) (root : String) (dash : Bool)
    (bs : List (Fin 256)) :
    toXmlElement env (.bytes bs) root dash =
      .mk (if dash then charReplace '_' '-' root else root)
        [("type", "base64Binary")] (some (b64encodeStr bs)) [] := by
  rw [toXmlElement.eq_def]
  rfl

theorem b64encodeChars_ascii (bs : List (Fin 256)) :
    ∀ c ∈ b64encodeChars bs, c.toNat < 128 := by
  induction bs using b64encodeChars.induct with
  | case1 =>
    intro c hc
    simp [b64encodeChars] at hc
  | case2 b =>
    intro c hc
    rw [b64encodeChars] at hc
    fin_cases hc
    · exact b64char_ascii _
    · exact b64char_ascii _
    · decide
    · decide
  | case3 b1 b2 =>
    intro c hc
    rw [b64encodeChars] at hc
    fin_cases hc
    · exact b64char_ascii _
    · exact b64char_ascii _
    · exact b64char_ascii _
    · decide
  | case4 b1 b2 b3 rest ih =>
    intro c hc
    rw [b64encodeChars] at hc
    rcases List.mem_append.1 hc with h | h
    · fin_cases h
      · exact b64char_ascii _
      · exact b64char_ascii _
      · exact b64char_ascii _
      · exact b64char_ascii _
    · exact ih c h

theorem xmlToDict_b64_leaf (env : Env) (tag : String) (sr : Bool)
    (bs : List (Fin 256)) :
    xmlToDict env
      (.mk tag [("type", "base64Binary")] (some (b64encodeStr bs)) []) sr =
      .ok (.bytes bs) := by
  rw [xmlToDict.eq_def]
  have hlow : pyLower "base64Binary" = "base64binary" := rfl
  have hdata : (b64encodeStr bs).data = b64encodeChars bs := rfl
  have hascii : ∀ x ∈ (b64encodeStr bs).data, x.toNat < 128 := by
    rw [hdata]
    exact b64encodeChars_ascii bs
  simp [pyGet, hlow]
  rw [if_pos hascii, hdata, b64_roundtrip]

theorem c1_rt_bytes (env : Env) (root : String) (dash : Bool) (sr : Bool)
    (bs : List (Fin 256)) :
    xmlToDict env (toXmlElement env (.bytes bs) root dash) sr =
      .ok (.bytes bs) := by
  rw [toXmlElement_bytes, xmlToDict_b64_leaf]

theorem toXmlElement_str (env : Env) (root : String) (dash : Bool)
    (s : String) :
    toXmlElement env (.str s) root dash =
      .mk (if dash then charReplace '_' '-' root else root) []
        (some s) [] := by
  rw [toXmlElement.eq_def]
  rfl

theorem xmlToDict_untyped_text_leaf (env : Env) (tag : String) (sr : Bool)
    (s : String) :
    xmlToDict env (.mk tag [] (some s) []) sr = .ok (.str s) := by
  rw [xmlToDict.eq_def]
  have hlow : pyLower "" = "" := rfl
  simp [pyGet, hlow]

theorem c1_rt_str (env : Env) (root : String) (dash : Bool) (sr : Bool)
    (s : String) :
    xmlToDict env (toXmlElement env (.str s) root dash) sr =
      .ok (.str s) := by
  rw [toXmlElement_str, xmlToDict_untyped_text_leaf]

theorem xmlToDict_string_leaf (env : Env) (tag : String) (sr : Bool)
    (t : String) :
    xmlToDict env (.mk tag [("type", "string")] (some t) []) sr =
      .ok (.str t) := by
  rw [xmlToDict.eq_def]
  have hlow : pyLower "string" = "string" := rfl
  by_cases ht : t = ""
  · subst ht
    simp [pyGet, hlow]
  · simp [pyGet, hlow, ht]

theorem daysInMonth_le_31 (y m : Nat) : daysInMonth y m ≤ 31 := by
  unfold daysInMonth
  split
  · split
    · omega
    · omega
  · split
    · omega
    · omega

theorem dateStr_ne_empty (y m d : Nat) : dateStr y m d ≠ "" := by
  intro h
  have h2 := congrArg String.toList h
  have h3 : (dateStr y m d).toList =
      padZero 4 (natDigits y) ++ '-' :: padZero 2 (natDigits m) ++
        '-' :: padZero 2 (natDigits d) := rfl
  rw [h3] at h2
  simp at h2

theorem xmlToDict_date_leaf (env : Env) (tag : String) (sr : Bool)
    (y m d : Nat) (hy1 : 1 ≤ y) (hy2 : y ≤ 9999) (hm1 : 1 ≤ m)
    (hm2 : m ≤ 12) (hd1 : 1 ≤ d) (hd2 : d ≤ daysInMonth y m) :
    xmlToDict env (.mk tag [("type", "date")] (some (dateStr y m d)) []) sr
      = .ok (.date y m d) := by
  rw [xmlToDict.eq_def]
  have hd31 : d ≤ 31 := le_trans hd2 (daysInMonth_le_31 y m)
  have hmk : pyDateMake y m d = some (.date y m d) := by
    unfold pyDateMake
    rw [if_pos (by simp; omega)]
  have hlow : pyLower "date" = "date" := rfl
  have hpd : parseYmd (dateStr y m d).data = some (y, m, d) :=
    parseYmd_dateStr y m d hy1 hy2 hm1 hm2 hd1 hd31
  simp [pyGet, hlow, noText, dateStr_ne_empty y m d, hpd, hmk]

theorem xmlToDict_decimal_leaf (env : Env) (tag : String) (sr : Bool)
    (t : String) (ht : t ≠ "") (r : String)
    (hp : env.decimalParse t = .ok r) :
    xmlToDict env (.mk tag [("type", "decimal")] (some t) []) sr =
      .ok (.decimal r) := by
  rw [xmlToDict.eq_def]
  have hlow : pyLower "decimal" = "decimal" := rfl
  simp [pyGet, hlow, ht, hp, noText, Except.map]

theorem xmlToDict_float_leaf (env : Env) (tag : String) (sr : Bool)
    (t : String) (ht : t ≠ "") (r : String)
    (hp : env.floatParse t = .ok r) :
    xmlToDict env (.mk tag [("type", "float")] (some t) []) sr =
      .ok (.float r) := by
  rw [xmlToDict.eq_def]
  have hlow : pyLower "float" = "float" := rfl
  simp [pyGet, hlow, ht, hp, noText, Except.map]

theorem xmlToDict_double_leaf (env : Env) (tag : String) (sr : Bool)
    (t : String) (ht : t ≠ "") (r : String)
    (hp : env.floatParse t = .ok r) :
    xmlToDict env (.mk tag [("type", "double")] (some t) []) sr =
      .ok (.float r) := by
  rw [xmlToDict.eq_def]
  have hlow : pyLower "double" = "double" := rfl
  simp [pyGet, hlow, ht, hp, noText, Except.map]

theorem xmlToDict_datetime_leaf (env : Env) (tag : String) (sr : Bool)
    (t : String) (ht : t ≠ "") (r : String)
    (hp : env.dateParse t = .ok r) :
    xmlToDict env (.mk tag [("type", "datetime")] (some t) []) sr =
      .ok (.datetime r) := by
  rw [xmlToDict.eq_def]
  have hlow : pyLower "datetime" = "datetime" := rfl
  simp [pyGet, hlow, ht, hp, noText, Except.map]

theorem toXmlElement_decimal (env : Env) (root : String) (dash : Bool)
    (r : String) :
    toXmlElement env (.decimal r) root dash =
      .mk (if dash then charReplace '_' '-' root else root) []
        (some r) [] := by
  rw [toXmlElement.eq_def]
  rfl

/-- Claim C1 (amended) — the scalar codec table the code implements.
Encode: `serialize` emits a `type` attribute only for Boolean
(`boolean`), Integer (`integer`) and bytes (`base64Binary`); `None` gets
`nil="true"`; String, Decimal, Float, Date and DateTime all fall through
to the default serializer — `str(value)` text and NO `type` attribute.
Round-trip through an XML element holds for the Null, Boolean, Integer,
bytes and String rows; an encoded Decimal (or Float/Date/DateTime) comes
back as a String, so those rows do not invert.  Decode does implement the
spec's table for explicitly-tagged leaves: `integer`, `boolean`, `date`,
`decimal`, `float`/`double`, `datetime`, `string`, `base64Binary` and
`nil="true"`. -/
theorem claim_C1 (env : Env) :
    (serialize PyVal.null = ⟨true, none, none⟩) ∧
    (∀ b, serialize (PyVal.bool b) =
      ⟨false, some "boolean", some (if b then "true" else "false")⟩) ∧
    (∀ n, serialize (PyVal.int n) =
      ⟨false, some "integer", some (intStr n)⟩) ∧
    (∀ bs, serialize (PyVal.bytes bs) =
      ⟨false, some "base64Binary", some (b64encodeStr bs)⟩) ∧
    (∀ s, serialize (PyVal.str s) = ⟨false, none, some s⟩) ∧
    (∀ r, serialize (PyVal.decimal r) = ⟨false, none, some r⟩) ∧
    (∀ r, serialize (PyVal.float r) = ⟨false, none, some r⟩) ∧
    (∀ y m d, serialize (PyVal.date y m d) =
      ⟨false, none, some (dateStr y m d)⟩) ∧
    (∀ r, serialize (PyVal.datetime r) = ⟨false, none, some r⟩) ∧
    (∀ root dash sr,
      xmlToDict env (toXmlElement env .null root dash) sr = .ok .null) ∧
    (∀ root dash sr b,
      xmlToDict env (toXmlElement env (.bool b) root dash) sr =
        .ok (.bool b)) ∧
    (∀ root dash sr n,
      xmlToDict env (toXmlElement env (.int n) root dash) sr =
        .ok (.int n)) ∧
    (∀ root dash sr bs,
      xmlToDict env (toXmlElement env (.bytes bs) root dash) sr =
        .ok (.bytes bs)) ∧
    (∀ root dash sr s,
      xmlToDict env (toXmlElement env (.str s) root dash) sr =
        .ok (.str s)) ∧
    (∀ root dash sr r,
      xmlToDict env (toXmlElement env (.decimal r) root dash) sr =
        .ok (.str r)) ∧
    (∀ tag sr t n, t ≠ "" → pyIntParse t = some n →
      xmlToDict env (.mk tag [("type", "integer")] (some t) []) sr =
        .ok (.int n)) ∧
    (∀ tag sr t,
      xmlToDict env (.mk tag [("type", "boolean")] (some t) []) sr =
        .ok (.bool (if t = "" then false
                    else (pyStrip t.toList = "true".toList ||
                          pyStrip t.toList = "1".toList)))) ∧
    (∀ tag sr y m d, 1 ≤ y → y ≤ 9999 → 1 ≤ m → m ≤ 12 → 1 ≤ d →
      d ≤ daysInMonth y m →
      xmlToDict env
        (.mk tag [("type", "date")] (some (dateStr y m d)) []) sr =
        .ok (.date y m d)) ∧
    (∀ tag sr t r, t ≠ "" → env.decimalParse t = .ok r →
      xmlToDict env (.mk tag [("type", "decimal")] (some t) []) sr =
        .ok (.decimal r)) ∧
    (∀ tag sr t r, t ≠ "" → env.floatParse t = .ok r →
      xmlToDict env (.mk tag [("type", "float")] (some t) []) sr =
        .ok (.float r) ∧
      xmlToDict env (.mk tag [("type", "double")] (some t) []) sr =
        .ok (.float r)) ∧
    (∀ tag sr t r, t ≠ "" → env.dateParse t = .ok r →
      xmlToDict env (.mk tag [("type", "datetime")] (some t) []) sr =
        .ok (.datetime r)) ∧
    (∀ tag sr t,
      xmlToDict env (.mk tag [("type", "string")] (some t) []) sr =
        .ok (.str t)) ∧
    (∀ tag sr bs,
      xmlToDict env
        (.mk tag [("type", "base64Binary")] (some (b64encodeStr bs)) []) sr
        = .ok (.bytes bs)) ∧
    (∀ tag sr,
      xmlToDict env (.mk tag [("nil", "true")] none []) sr = .ok .null) := by
  refine ⟨rfl, fun b => rfl, fun n => rfl, fun bs => rfl, fun s => rfl,
    fun r => rfl, fun r => rfl, fun y m d => rfl, fun r => rfl,
    c1_rt_null env, c1_rt_bool env, c1_rt_int env, c1_rt_bytes env,
    c1_rt_str env, ?_, ?_, ?_, ?_, ?_, ?_, ?_, ?_, ?_, ?_⟩
  · intro root dash sr r
    rw [toXmlElement_decimal env root dash r]
    exact xmlToDict_untyped_text_leaf env _ sr r
  · intro tag sr t n ht hp
    exact xmlToDict_integer_leaf env tag sr t ht n hp
  · intro tag sr t
    exact xmlToDict_boolean_leaf env tag sr t
  · intro tag sr y m d h1 h2 h3 h4 h5 h6
    exact xmlToDict_date_leaf env tag sr y m d h1 h2 h3 h4 h5 h6
  · intro tag sr t r ht hp
    exact xmlToDict_decimal_leaf env tag sr t ht r hp
  · intro tag sr t r ht hp
    exact ⟨xmlToDict_float_leaf env tag sr t ht r hp,
      xmlToDict_double_leaf env tag sr t ht r hp⟩
  · intro tag sr t r ht hp
    exact xmlToDict_datetime_leaf env tag sr t ht r hp
  · intro tag sr t
    exact xmlToDict_string_leaf env tag sr t
  · intro tag sr bs
    exact xmlToDict_b64_leaf env tag sr bs
  · intro tag sr
    exact xmlToDict_nil_leaf env tag sr

/-- Witness for C1 at concrete inputs (the date is a leap-year boundary
case); `stubEnv`'s Decimal constructor carries the literal through, as
`decimal.Decimal` does on a plain literal. -/
theorem claim_C1_witness :
    xmlToDict stubEnv (.mk "x" [("type", "integer")] (some "42") []) false =
      .ok (.int 42) ∧
    xmlToDict stubEnv
      (.mk "x" [("type", "date")] (some (dateStr 2024 2 29)) []) false =
      .ok (.date 2024 2 29) ∧
    xmlToDict stubEnv (.mk "x" [("type", "decimal")] (some "3.50") [])
      false = .ok (.decimal "3.50") := by
  have h := claim_C1 stubEnv
  obtain ⟨-, -, -, -, -, -, -, -, -, -, -, -, -, -, -, hint, -, hdate,
    hdec, -⟩ := h
  refine ⟨?_, ?_, ?_⟩
  · exact hint "x" false "42" 42 (by decide) (by decide)
  · exact hdate "x" false 2024 2 29 (by decide) (by decide) (by decide)
      (by decide) (by decide) (by decide)
  · exact hdec "x" false "3.50" "3.50" (by decide) rfl

/-- Counterexample to C1 as stated: the code's serializer table has no
entries for Decimal, Float, Date or DateTime, so they hit the default
serializer and get NO `type` attribute (the claim's table prescribes
`decimal`, `float`, `date`, `datetime`), and an encoded Decimal decodes
back as a String, not a Decimal. -/
theorem claim_C1_counterexample :
    (serialize (PyVal.decimal "3.5")).typeAttr = Option.none ∧
    (serialize (PyVal.float "0.5")).typeAttr = Option.none ∧
    (serialize (PyVal.date 2024 1 2)).typeAttr = Option.none ∧
    (serialize (PyVal.datetime "2024-01-02 03:04:05")).typeAttr =
      Option.none ∧
    (Option.none : Option String) ≠ some "decimal" ∧
    xmlToDict stubEnv (toXmlElement stubEnv (PyVal.decimal "3.5") "object"
      true) false = .ok (PyVal.str "3.5") := by
  refine ⟨rfl, rfl, rfl, rfl, by simp, ?_⟩
  rw [toXmlElement_decimal stubEnv "object" true "3.5"]
  exact xmlToDict_untyped_text_leaf stubEnv _ false "3.5"

/-- Claim C10 — blank and invalid XML payloads.  A nonempty all-whitespace
string decodes to the empty map without touching the parser; a string the
parser rejects raises `util.Error` (wrapping the parser's message), never
the low-level parser exception itself; `XMLFormat.decode` forwards the
empty map and re-wraps `util.Error` as `formats.Error`. -/
theorem claim_C10 :
    (∀ (env : Env) (s : String) (sr : Bool), s ≠ "" →
        s.toList.all isPySpace = true →
        xmlToDictStr env s sr = .ok (.dict [])) ∧
    (∀ (env : Env) (s : String) (sr : Bool) (e : PyExn),
        (decide (s ≠ "") && s.toList.all isPySpace) = false →
        env.etFromstring s = .error e →
        xmlToDictStr env s sr =
          .error (.utilError ("Unable to parse xml data: " ++ exnMsg e))) ∧
    (∀ (env : Env) (s : String), s ≠ "" →
        s.toList.all isPySpace = true →
        XMLFormatDecode env s = .ok (.dict [])) ∧
    (∀ (env : Env) (s : String) (e : PyExn),
        (decide (s ≠ "") && s.toList.all isPySpace) = false →
        env.etFromstring s = .error e →
        XMLFormatDecode env s =
          .error (.formatsError ("Unable to parse xml data: " ++
            exnMsg e))) := by
  have h1 : ∀ (env : Env) (s : String) (sr : Bool), s ≠ "" →
      s.toList.all isPySpace = true →
      xmlToDictStr env s sr = .ok (.dict []) := by
    intro env s sr hne hsp
    unfold xmlToDictStr
    rw [if_pos (by rw [hsp]; simp [hne])]
  have h2 : ∀ (env : Env) (s : String) (sr : Bool) (e : PyExn),
      (decide (s ≠ "") && s.toList.all isPySpace) = false →
      env.etFromstring s = .error e →
      xmlToDictStr env s sr =
        .error (.utilError ("Unable to parse xml data: " ++ exnMsg e)) := by
    intro env s sr e hblank hp
    unfold xmlToDictStr
    rw [if_neg (by rw [hblank]; simp), hp]
  refine ⟨h1, h2, ?_, ?_⟩
  · intro env s hne hsp
    unfold XMLFormatDecode
    rw [h1 env s false hne hsp]
    rfl
  · intro env s e hblank hp
    unfold XMLFormatDecode
    rw [h2 env s false e hblank hp]

/-- Witness for C10: the blank body `"  \n"` and an unparsable body with
the stub parser. -/
theorem claim_C10_witness :
    xmlToDictStr stubEnv "  \n" true = .ok (.dict []) ∧
    XMLFormatDecode stubEnv "  \n" = .ok (.dict []) ∧
    xmlToDictStr stubEnv "<" false =
      .error (.utilError "Unable to parse xml data: stub") ∧
    XMLFormatDecode stubEnv "<" =
      .error (.formatsError "Unable to parse xml data: stub") := by
  have h := claim_C10
  exact ⟨h.1 stubEnv "  \n" true (by decide) (by decide),
    h.2.2.1 stubEnv "  \n" (by decide) (by decide),
    h.2.1 stubEnv "<" false (.valueError "stub") (by decide) rfl,
    h.2.2.2 stubEnv "<" (.valueError "stub") (by decide) rfl⟩

/-- Claim C7 — id extraction after a create POST.  The `Location` header
is preferred, lowercase `location` is the fallback; the final path
segment before any extension is coerced with `int()` when numeric and
kept as a string otherwise; `/people/7.json` yields integer 7 under both
header spellings, including through the full `save()` flow, where the id
is stored under the primary key. -/
theorem claim_C7 :
    (∀ (resp : HttpResponse) (l : String),
        pyGet resp.headers "Location" = some l →
        idFromResponse resp = idFromLoc l) ∧
    (∀ (resp : HttpResponse) (l : String),
        pyGet resp.headers "Location" = none →
        pyGet resp.headers "location" = some l →
        idFromResponse resp = idFromLoc l) ∧
    (idFromLoc "/people/7.json" = some (.int 7)) ∧
    (idFromLoc "/people/abc.json" = some (.str "abc")) ∧
    (∀ s : String, '/' ∉ s.toList → idFromLoc s = none) ∧
    (save stubEnv urlenc0 clsJson recEmpty (fun _ _ _ => .ok respLoc) =
      .ok (true, { attributes := [("id", PyVal.int 7)],
                   prefixOptions := [], errors := [] })) ∧
    (save stubEnv urlenc0 clsJson recEmpty (fun _ _ _ => .ok respLocLower)
      = .ok (true, { attributes := [("id", PyVal.int 7)],
                     prefixOptions := [], errors := [] })) := by
  refine ⟨?_, ?_, rfl, rfl, ?_, ?_, ?_⟩
  · intro resp l h
    unfold idFromResponse
    rw [h]
    rfl
  · intro resp l h1 h2
    unfold idFromResponse
    rw [h1, h2]
    rfl
  · intro s h
    unfold idFromLoc segAfterLastSlash
    rw [if_neg (fun hc => h (by simpa using hc))]
  · rfl
  · rfl

/-- Witness for C7 at the two concrete header spellings and a
slash-free location. -/
theorem claim_C7_witness :
    idFromResponse respLoc = idFromLoc "/people/7.json" ∧
    idFromResponse respLocLower = idFromLoc "/people/7.json" ∧
    idFromLoc "abc" = none := by
  have h := claim_C7
  exact ⟨h.1 respLoc "/people/7.json" rfl,
    h.2.1 respLocLower "/people/7.json" rfl rfl,
    h.2.2.2.2.1 "abc" (by decide)⟩

/-- Claim C8 — error parsing on a record with a `name` attribute.  The
JSON body `("errors" -> ("name" -> ["already exists"]))` and the XML body
`<errors><error>Name already exists</error></errors>` both yield the error
set `name -> ["already exists"]`; the array-form machinery splits the
message at whitespace, underscores/lowercases the first token (`"Name"` to
`"name"`), matches it against the record's attribute keys, and files the
remainder. -/
theorem claim_C8 :
    errorsFromJson ["name"]
      (.ok (.dict
        [("errors", .dict [("name", .list [.str "already exists"])])])) []
      = .ok [("name", [PyVal.str "already exists"])] ∧
    errorsFromXml envC8 ["name"] bodyC8 [] =
      .ok [("name", [PyVal.str "already exists"])] ∧
    pySplit "Name already exists" = ["Name", "already", "exists"] ∧
    underscoreW "Name" = "name" ∧
    errorsFromArray ["name"] [.str "Name already exists"] [] =
      .ok [("name", [PyVal.str "already exists"])] ∧
    errorsFromArray [] [.str "Name already exists"] [] =
      .ok [("base", [PyVal.str "Name already exists"])] :=
  ⟨rfl, rfl, rfl, rfl, rfl, rfl⟩

/-- Claim C5 — 422 handling in `save()`.  On a `ResourceInvalid` transport
error the error set is populated from the response body by `from_xml`
under the XML format and by `from_json` under JSON, and `save` returns
`False` without raising; any other transport error propagates unchanged. -/
theorem claim_C5 (env : Env) (ue : List (String × PyVal) → String)
    (cls : ResourceClass) (rec : Record) (body bodyEnc : String)
    (hb : encodeRecord env cls { rec with errors := [] } = .ok bodyEnc) :
    (∀ errs, cls.fmt = .xml →
      errorsFromXml env (attrKeysOf rec) body [] = .ok errs →
      save env ue cls rec (fun _ _ _ => .error (.resourceInvalid body)) =
        .ok (false, { attributes := rec.attributes,
                      prefixOptions := rec.prefixOptions,
                      errors := errs })) ∧
    (∀ errs, cls.fmt = .json →
      errorsFromJson (attrKeysOf rec) (env.jsonLoads body) [] = .ok errs →
      save env ue cls rec (fun _ _ _ => .error (.resourceInvalid body)) =
        .ok (false, { attributes := rec.attributes,
                      prefixOptions := rec.prefixOptions,
                      errors := errs })) ∧
    (∀ e : TransportErr, (∀ b, e ≠ .resourceInvalid b) →
      save env ue cls rec (fun _ _ _ => .error e) = .error (.transport e))
    := by
  have hkeys : attrKeysOf { rec with errors := [] } = attrKeysOf rec := rfl
  refine ⟨?_, ?_, ?_⟩
  · intro errs hfmt herr
    by_cases htr : truthy (getId cls { rec with errors := [] }) = true
    · simp [save, htr, hb, saveErrorsFromBody, hfmt, hkeys, herr]
    · simp [save, htr, hb, saveErrorsFromBody, hfmt, hkeys, herr]
  · intro errs hfmt herr
    by_cases htr : truthy (getId cls { rec with errors := [] }) = true
    · simp [save, htr, hb, saveErrorsFromBody, hfmt, hkeys, herr]
    · simp [save, htr, hb, saveErrorsFromBody, hfmt, hkeys, herr]
  · intro e he
    by_cases htr : truthy (getId cls { rec with errors := [] }) = true
    · simp [save, htr, hb]
      cases e with
      | resourceInvalid b => exact absurd rfl (he b)
      | redirection m => simp
      | clientError m => simp
      | serverError m => simp
      | connectionErr m => simp
    · simp [save, htr, hb]
      cases e with
      | resourceInvalid b => exact absurd rfl (he b)
      | redirection m => simp
      | clientError m => simp
      | serverError m => simp
      | connectionErr m => simp

/-- Witness for C5: an XML 422 populating `name` errors, a JSON 422 with
an unparsable body (yielding an empty error set), and a propagated
server error. -/
theorem claim_C5_witness :
    save envC8 urlenc0 clsXml recName
        (fun _ _ _ => .error (.resourceInvalid bodyC8)) =
      .ok (false, { attributes := [("name", PyVal.str "Bob")],
                    prefixOptions := [],
                    errors := [("name", [PyVal.str "already exists"])] }) ∧
    save stubEnv urlenc0 clsJson recName
        (fun _ _ _ => .error (.resourceInvalid "oops")) =
      .ok (false, { attributes := [("name", PyVal.str "Bob")],
                    prefixOptions := [], errors := [] }) ∧
    save stubEnv urlenc0 clsJson recName
        (fun _ _ _ => .error (.serverError "boom")) =
      .error (.transport (.serverError "boom")) := by
  refine ⟨?_, ?_, ?_⟩
  · exact (claim_C5 envC8 urlenc0 clsXml recName bodyC8
      (xmlHeader ++ "") rfl).1 [("name", [PyVal.str "already exists"])]
      rfl rfl
  · exact (claim_C5 stubEnv urlenc0 clsJson recName "oops" "" rfl).2.1 []
      rfl rfl
  · exact (claim_C5 stubEnv urlenc0 clsJson recName "x" "" rfl).2.2
      (.serverError "boom") (fun b h => TransportErr.noConfusion h)

/-- Claim C6 (amended) — success-body handling in `save()`, for a response
carrying no id-bearing location header.  A body whose decode raises the
format-level decode error (`formats.Error`) is a no-op success; a decoded
falsy value is a no-op success; a decoded truthy value is merged with
`_update`; but any other exception escaping the decode (e.g. an XML
integer-conversion `ValueError`) propagates out of `save()` uncaught. -/
theorem claim_C6 (env : Env) (ue : List (String × PyVal) → String)
    (cls : ResourceClass) (rec : Record) (resp : HttpResponse)
    (bodyEnc : String)
    (hb : encodeRecord env cls { rec with errors := [] } = .ok bodyEnc)
    (hid : idFromResponse resp = none) :
    (∀ m, formatDecode env cls resp.body = .error (.formatsError m) →
      save env ue cls rec (fun _ _ _ => .ok resp) =
        .ok (true, { attributes := rec.attributes,
                     prefixOptions := rec.prefixOptions, errors := [] })) ∧
    (∀ attrs, formatDecode env cls resp.body = .ok attrs →
      truthy attrs = false →
      save env ue cls rec (fun _ _ _ => .ok resp) =
        .ok (true, { attributes := rec.attributes,
                     prefixOptions := rec.prefixOptions, errors := [] })) ∧
    (∀ attrs, formatDecode env cls resp.body = .ok attrs →
      truthy attrs = true →
      save env ue cls rec (fun _ _ _ => .ok resp) =
        .ok (true, recUpdate { attributes := rec.attributes,
                               prefixOptions := rec.prefixOptions,
                               errors := [] } attrs)) ∧
    (∀ e, formatDecode env cls resp.body = .error e →
      (∀ m, e ≠ .formatsError m) →
      save env ue cls rec (fun _ _ _ => .ok resp) = .error e) := by
  refine ⟨?_, ?_, ?_, ?_⟩
  · intro m hdec
    by_cases htr : truthy (getId cls { rec with errors := [] }) = true
    · simp [save, htr, hb, hid, hdec]
    · simp [save, htr, hb, hid, hdec]
  · intro attrs hdec hfal
    by_cases htr : truthy (getId cls { rec with errors := [] }) = true
    · simp [save, htr, hb, hid, hdec, hfal]
    · simp [save, htr, hb, hid, hdec, hfal]
  · intro attrs hdec htru
    by_cases htr : truthy (getId cls { rec with errors := [] }) = true
    · simp [save, htr, hb, hid, hdec, htru]
    · simp [save, htr, hb, hid, hdec, htru]
  · intro e hdec he
    by_cases htr : truthy (getId cls { rec with errors := [] }) = true
    · simp [save, htr, hb, hid, hdec]
    · simp [save, htr, hb, hid, hdec]

/-- Witness for C6: an empty JSON success body (decode raises the format
error, save still returns `True`), a decoded-empty body, and a truthy
body that is merged. -/
theorem claim_C6_witness :
    save stubEnv urlenc0 clsJson recName
        (fun _ _ _ => .ok { code := 200, body := "", headers := [] }) =
      .ok (true, { attributes := [("name", PyVal.str "Bob")],
                   prefixOptions := [], errors := [] }) ∧
    save witEnvC2 urlenc0 clsJson recName
        (fun _ _ _ => .ok { code := 200, body := "ok", headers := [] }) =
      .ok (true, recUpdate { attributes := [("name", PyVal.str "Bob")],
                             prefixOptions := [], errors := [] }
            (.dict [("a", .int 3)])) := by
  constructor
  · exact (claim_C6 stubEnv urlenc0 clsJson recName
      { code := 200, body := "", headers := [] } "" rfl rfl).1 "stub" rfl
  · exact (claim_C6 witEnvC2 urlenc0 clsJson recName
      { code := 200, body := "ok", headers := [] } "wire" rfl rfl).2.2.1
      (.dict [("a", .int 3)]) rfl rfl

/-- Counterexample to C6 as stated: a 200 response whose well-formed XML
body `<x type="integer">abc</x>` fails integer conversion makes `save()`
raise `ValueError` instead of returning `True`. -/
theorem claim_C6_counterexample :
    save envC6 urlenc0 clsXml recEmpty
        (fun _ _ _ => .ok { code := 200, body := bodyC6, headers := [] }) =
      .error (.valueError "invalid literal for int: abc") := rfl

/-- `_prefix` of the empty template is the empty string. -/
theorem prefixFn_empty (opts : List (String × PyVal)) :
    prefixFn "" opts = "" := by
  have htl : ("" : String).toList = [] := rfl
  have h : tmplTokens [] = [] := by rw [tmplTokens.eq_def]
  simp [prefixFn, stripOneTrailingSlash, prefixParameters, htl, h,
    tokenNames, safeSubstitute, stripLeadingSlashes]

/-- Claim C9 — create-versus-update choice.  Against the
request-recording connection, `save()`'s observable request is `POST` to
the collection path exactly when the primary-key attribute is falsy, and
`PUT` to the element path when it is truthy; `None`, an absent key, `0`,
`False` and `""` are all falsy. -/
theorem claim_C9 (env : Env) (ue : List (String × PyVal) → String)
    (cls : ResourceClass) (rec : Record) (bodyEnc : String)
    (hb : encodeRecord env cls { rec with errors := [] } = .ok bodyEnc) :
    (save env ue cls rec probeConn =
      .error (.transport (.connectionErr
        (if truthy (getId cls rec) then
          "PUT " ++ elementPath ue cls (getId cls rec) rec.prefixOptions []
         else
          "POST " ++ collectionPath ue cls rec.prefixOptions [])))) ∧
    truthy PyVal.null = false ∧
    truthy (PyVal.int 0) = false ∧
    truthy (PyVal.bool false) = false ∧
    truthy (PyVal.str "") = false ∧
    (∀ (cls2 : ResourceClass) (po : List (String × PyVal))
        (er : List (String × List PyVal)),
      getId cls2 { attributes := [], prefixOptions := po, errors := er } =
        PyVal.null) := by
  refine ⟨?_, rfl, rfl, rfl, rfl, fun cls2 po er => rfl⟩
  have hgid : getId cls { rec with errors := [] } = getId cls rec := rfl
  have hpo : ({ rec with errors := [] } : Record).prefixOptions =
      rec.prefixOptions := rfl
  by_cases htr : truthy (getId cls rec) = true
  · have htr0 : truthy (getId cls { rec with errors := [] }) = true := htr
    simp [save, htr0, hb, probeConn, methodName, htr, hgid, hpo]
  · have htr0 : ¬(truthy (getId cls { rec with errors := [] }) = true) :=
      htr
    simp [save, htr0, hb, probeConn, methodName, htr, hgid, hpo]

/-- Witness for C9: a record with no id POSTs to the collection path; one
with id 5 PUTs to the element path. -/
theorem claim_C9_witness :
    save stubEnv urlenc0 clsJson recEmpty probeConn =
      .error (.transport (.connectionErr "POST /people.json")) ∧
    save stubEnv urlenc0 clsJson
        { attributes := [("id", PyVal.int 5)], prefixOptions := [],
          errors := [] } probeConn =
      .error (.transport (.connectionErr "PUT /people/5.json")) := by
  constructor
  · have h := (claim_C9 stubEnv urlenc0 clsJson recEmpty "" rfl).1
    have hfal : truthy (getId clsJson recEmpty) = false := rfl
    have hpf : prefixFn clsJson.prefixSource recEmpty.prefixOptions = "" :=
      prefixFn_empty _
    have hcp : collectionPath urlenc0 clsJson recEmpty.prefixOptions [] =
        "/people.json" := by
      unfold collectionPath
      rw [hpf]
      rfl
    rw [h, hfal, hcp]
    rfl
  · have h := (claim_C9 stubEnv urlenc0 clsJson
      { attributes := [("id", PyVal.int 5)], prefixOptions := [],
        errors := [] } "" rfl).1
    have htru : truthy (getId clsJson
        { attributes := [("id", PyVal.int 5)], prefixOptions := [],
          errors := [] }) = true := rfl
    have hnd : natDigits 5 = ['5'] := by
      rw [natDigits]
      rfl
    have hid5 : getId clsJson
        { attributes := [("id", PyVal.int 5)], prefixOptions := [],
          errors := [] } = PyVal.int 5 := rfl
    have hps : pyStr (PyVal.int 5) = "5" := by
      show intStr 5 = "5"
      simp [intStr, hnd]
    have hpf : prefixFn clsJson.prefixSource
        ({ attributes := [("id", PyVal.int 5)], prefixOptions := [],
           errors := [] } : Record).prefixOptions = "" :=
      prefixFn_empty _
    have hel : elementPath urlenc0 clsJson
        (getId clsJson
          { attributes := [("id", PyVal.int 5)], prefixOptions := [],
            errors := [] })
        ({ attributes := [("id", PyVal.int 5)], prefixOptions := [],
           errors := [] } : Record).prefixOptions [] = "/people/5.json" := by
      unfold elementPath
      rw [hpf, hid5, hps]
      rfl
    rw [h, htru, hel]
    rfl

/-! ### Claim C3: the children-branch merge -/

/-- `pyGet` on a cons cell. -/
theorem pyGet_cons (a : String × PyVal) (l : List (String × PyVal))
    (k : String) :
    pyGet (a :: l) k = if a.1 = k then some a.2 else pyGet l k := by
  by_cases h : a.1 = k <;> simp [pyGet, List.find?, h]

/-- `pyGet` distributes over append. -/
theorem pyGet_append (items l : List (String × PyVal)) (k : String) :
    pyGet (items ++ l) k = (pyGet items k).or (pyGet l k) := by
  cases hf : List.find? (fun kv => kv.1 = k) items with
  | none => simp [pyGet, List.find?_append, hf]
  | some x => simp [pyGet, List.find?_append, hf]

/-- Overwriting the entry at `k` makes `k` look up the new value. -/
theorem pyGet_map_overwrite_same (items : List (String × PyVal))
    (k : String) (v : PyVal) :
    (pyGet items k).isSome →
    pyGet (items.map (fun kv => if kv.1 = k then (k, v) else kv)) k =
      some v := by
  induction items with
  | nil => intro h; simp [pyGet] at h
  | cons a l ih =>
    intro h
    rw [List.map_cons]
    by_cases hk : a.1 = k
    · rw [if_pos hk, pyGet_cons]
      simp
    · rw [if_neg hk, pyGet_cons, if_neg hk]
      apply ih
      rwa [pyGet_cons, if_neg hk] at h

/-- Overwriting the entry at `k` leaves every other key's lookup alone. -/
theorem pyGet_map_overwrite_other (items : List (String × PyVal))
    (k t : String) (v : PyVal) (h : k ≠ t) :
    pyGet (items.map (fun kv => if kv.1 = k then (k, v) else kv)) t =
      pyGet items t := by
  induction items with
  | nil => rfl
  | cons a l ih =>
    rw [List.map_cons]
    by_cases hk : a.1 = k
    · rw [if_pos hk, pyGet_cons, pyGet_cons]
      have h1 : ¬ ((k, v).1 = t) := h
      have h2 : ¬ (a.1 = t) := by rw [hk]; exact h
      rw [if_neg h1, if_neg h2, ih]
    · rw [if_neg hk, pyGet_cons, pyGet_cons]
      by_cases ht : a.1 = t
      · rw [if_pos ht, if_pos ht]
      · rw [if_neg ht, if_neg ht, ih]

/-- `d[k] = v` then `d.get(k)` returns `v`. -/
theorem pyGet_set_same (items : List (String × PyVal)) (k : String)
    (v : PyVal) : pyGet (pySet items k v) k = some v := by
  unfold pySet
  by_cases h : (List.find? (fun kv => kv.1 = k) items).isSome
  · rw [if_pos h]
    exact pyGet_map_overwrite_same items k v
      (by simpa [pyGet, Option.isSome_map] using h)
  · rw [if_neg h, pyGet_append]
    have hn : pyGet items k = none := by
      have h2 : ¬ (pyGet items k).isSome := by
        simpa [pyGet, Option.isSome_map] using h
      simpa using Option.not_isSome_iff_eq_none.mp h2
    rw [hn]
    simp [pyGet, List.find?]

/-- `d[k] = v` leaves other keys' lookups alone. -/
theorem pyGet_set_other (items : List (String × PyVal)) (k t : String)
    (v : PyVal) (h : k ≠ t) :
    pyGet (pySet items k v) t = pyGet items t := by
  unfold pySet
  by_cases hf : (List.find? (fun kv => kv.1 = k) items).isSome
  · rw [if_pos hf]
    exact pyGet_map_overwrite_other items k t v h
  · rw [if_neg hf, pyGet_append]
    have h1 : pyGet [(k, v)] t = none := by
      simp [pyGet, List.find?, h]
    rw [h1]
    cases hg : pyGet items t <;> simp

/-- The merge step's effect on the merged tag's own lookup: a fresh tag
stores the value, a stored list gets the value appended, any other stored
value is promoted to the two-element list. -/
theorem addChildAttr_get_same (items : List (String × PyVal)) (k : String)
    (v : PyVal) :
    pyGet (addChildAttr items k v) k =
      some (match pyGet items k with
            | none => v
            | some (PyVal.list xs) => PyVal.list (xs ++ [v])
            | some old => PyVal.list [old, v]) := by
  unfold addChildAttr
  cases h : pyGet items k with
  | none =>
    rw [pyGet_append, h]
    simp [pyGet, List.find?]
  | some old =>
    cases old <;> simp [pyGet_set_same]

/-- The merge step's effect on every other tag's lookup: none. -/
theorem addChildAttr_get_other (items : List (String × PyVal))
    (k t : String) (v : PyVal) (h : k ≠ t) :
    pyGet (addChildAttr items k v) t = pyGet items t := by
  unfold addChildAttr
  cases hk : pyGet items k with
  | none =>
    rw [pyGet_append]
    have h1 : pyGet [(k, v)] t = none := by
      simp [pyGet, List.find?, h]
    rw [h1]
    cases hg : pyGet items t <;> simp
  | some old =>
    cases old <;> simp [pyGet_set_other _ _ _ _ h]

/-- The children-branch fold, looked up at one tag, is exactly the
per-tag merge of that tag's decoded values in document order. -/
theorem mergeChildren_lookup (env : Env) (cs : List XmlElement) :
    ∀ (acc merged : List (String × PyVal)) (t : String),
      xmlMergeChildren env cs acc = .ok merged →
      pyGet merged t = mergedValues (pyGet acc t) (valuesFor env cs t) := by
  induction cs with
  | nil =>
    intro acc merged t h
    simp [xmlMergeChildren] at h
    subst h
    simp [valuesFor, mergedValues]
  | cons c rest ih =>
    intro acc merged t h
    cases hv : xmlToDict env c false with
    | error e => simp [xmlMergeChildren, hv, Bind.bind, Except.bind] at h
    | ok v =>
      simp only [xmlMergeChildren, hv, Bind.bind, Except.bind] at h
      rw [ih _ merged t h]
      by_cases ht : charReplace '-' '_' c.tag = t
      · have hvf : valuesFor env (c :: rest) t = v :: valuesFor env rest t := by
          simp [valuesFor, List.filterMap_cons, ht, hv, Except.toOption]
        rw [hvf]
        subst ht
        rw [addChildAttr_get_same]
        cases hacc : pyGet acc (charReplace '-' '_' c.tag) with
        | none => simp [mergedValues]
        | some old => cases old <;> simp [mergedValues]
      · have hvf : valuesFor env (c :: rest) t = valuesFor env rest t := by
          simp [valuesFor, ht]
        rw [hvf, addChildAttr_get_other _ _ _ _ ht]

/-- A tag with a merged value comes from some child. -/
theorem valuesFor_ne_nil (env : Env) (cs : List XmlElement) (t : String)
    (h : valuesFor env cs t ≠ []) :
    ∃ c ∈ cs, charReplace '-' '_' c.tag = t := by
  induction cs with
  | nil => simp [valuesFor] at h
  | cons c rest ih =>
    by_cases hc : charReplace '-' '_' c.tag = t
    · exact ⟨c, by simp, hc⟩
    · have h2 : valuesFor env rest t ≠ [] := by
        simpa [valuesFor, hc] using h
      obtain ⟨d, hd, hdt⟩ := ih h2
      exact ⟨d, by simp [hd], hdt⟩

/-- Claim C3 (amended) — an element with children (and no attributes of
its own) decodes, with `saveroot=False`, to the dict built by folding the
children in document order under their hyphen-normalized tags, where each
tag's final value is the per-tag merge of its decoded values: a second
value joined to a stored non-list promotes it to the two-element list
`[old, new]`, but a second value joined to a stored list (e.g. a first
child that itself decoded to an array) is appended into that list rather
than promoting it; every merged tag is the normalized tag of some child. -/
theorem claim_C3 (env : Env) (tag : String) (text : Option String)
    (children : List XmlElement) (merged : List (String × PyVal))
    (hne : children ≠ [])
    (hm : xmlMergeChildren env children [] = .ok merged) :
    xmlToDict env (.mk tag [] text children) false = .ok (.dict merged) ∧
    (∀ t, pyGet merged t = mergedValues none (valuesFor env children t)) ∧
    (∀ t v, pyGet merged t = some v →
      ∃ c ∈ children, charReplace '-' '_' c.tag = t) := by
  refine ⟨?_, ?_, ?_⟩
  · cases children with
    | nil => exact absurd rfl hne
    | cons c cs =>
      have hlow : pyLower "" = "" := rfl
      simp [xmlToDict, pyGet, hlow, hm, Bind.bind, Except.bind]
  · intro t
    have h := mergeChildren_lookup env children [] merged t hm
    simpa [pyGet] using h
  · intro t v hv
    have h := mergeChildren_lookup env children [] merged t hm
    rw [hv] at h
    apply valuesFor_ne_nil env children t
    intro hnil
    rw [hnil] at h
    simp [mergedValues, pyGet] at h

/-- Witness for C3: `<a><b type="array"><c type="integer">1</c>`
`<c type="integer">2</c></b><b type="integer">3</b></a>` decodes to
`{'b': [1, 2, 3]}`, and the `b` lookup agrees with the per-tag merge of
`[[1, 2], 3]`. -/
theorem claim_C3_witness :
    xmlToDict stubEnv treeC3 false =
      .ok (.dict [("b", PyVal.list [.int 1, .int 2, .int 3])]) ∧
    pyGet [("b", PyVal.list [PyVal.int 1, PyVal.int 2, PyVal.int 3])] "b" =
      mergedValues none
        (valuesFor stubEnv
          [.mk "b" [("type", "array")] none
            [.mk "c" [("type", "integer")] (some "1") [],
             .mk "c" [("type", "integer")] (some "2") []],
           .mk "b" [("type", "integer")] (some "3") []] "b") := by
  have h := claim_C3 stubEnv "a" none
    [.mk "b" [("type", "array")] none
      [.mk "c" [("type", "integer")] (some "1") [],
       .mk "c" [("type", "integer")] (some "2") []],
     .mk "b" [("type", "integer")] (some "3") []]
    [("b", PyVal.list [PyVal.int 1, PyVal.int 2, PyVal.int 3])]
    (by simp) rfl
  exact ⟨h.1, h.2.1 "b"⟩

/-- Counterexample to C3 as stated: in
`<a><b type="array">..1..2..</b><b type="integer">3</b></a>` the first
`b` decodes to the list `[1, 2]`, and the repeated `b` is appended into
it, yielding `{'b': [1, 2, 3]}` — not promoted to the claimed
two-element list `{'b': [[1, 2], 3]}`. -/
theorem claim_C3_counterexample :
    xmlToDict stubEnv treeC3 false =
      .ok (.dict [("b", PyVal.list [.int 1, .int 2, .int 3])]) ∧
    xmlToDict stubEnv treeC3 false ≠
      .ok (.dict [("b", PyVal.list [.list [.int 1, .int 2], .int 3])]) := by
  have h1 : xmlToDict stubEnv treeC3 false =
      .ok (.dict [("b", PyVal.list [.int 1, .int 2, .int 3])]) := rfl
  refine ⟨h1, ?_⟩
  intro h2
  rw [h1] at h2
  simp at h2

end PyActiveResource
